import Mathlib

/-!
Verification of the hub-side reconciliation engine of
`multicloud-operators-subscription` (`pkg/controller/mcmhub/hub.go`).

The Go code is shallowly embedded: the Kubernetes API client is modelled as
an environment of read results plus injected outcomes for mutating calls,
and every mutating call the code issues is recorded in an explicit action
trace.  Opaque serialized payloads (`runtime.RawExtension`) are modelled as
structured JSON-like documents; `json.Unmarshal` followed by
`reflect.DeepEqual` on the decoded documents is modelled by comparison of
canonical forms (object keys sorted, duplicate keys resolved last-wins,
exactly the distinctions `map[string]interface{}` keeps).
-/

/-- JSON-like structured document: the model of a decoded
`unstructured.Unstructured` / raw JSON payload. -/
inductive JValue where
  | jnull
  | jbool (b : Bool)
  | jnum (n : Int)
  | jstr (s : String)
  | jarr (xs : List JValue)
  | jobj (fs : List (String × JValue))

namespace JValue

mutual
/-- Structural equality of documents, the model of `reflect.DeepEqual`
on two decoded JSON values of the same shape. -/
def beq : JValue → JValue → Bool
  | .jnull, .jnull => true
  | .jbool a, .jbool b => a == b
  | .jnum a, .jnum b => a == b
  | .jstr a, .jstr b => a == b
  | .jarr a, .jarr b => beqList a b
  | .jobj a, .jobj b => beqFields a b
  | _, _ => false

def beqList : List JValue → List JValue → Bool
  | [], [] => true
  | x :: xs, y :: ys => beq x y && beqList xs ys
  | _, _ => false

def beqFields : List (String × JValue) → List (String × JValue) → Bool
  | [], [] => true
  | (k1, v1) :: xs, (k2, v2) :: ys => k1 == k2 && beq v1 v2 && beqFields xs ys
  | _, _ => false
end

mutual
theorem beq_refl : ∀ a : JValue, beq a a = true
  | .jnull => rfl
  | .jbool b => by simp [beq]
  | .jnum n => by simp [beq]
  | .jstr s => by simp [beq]
  | .jarr xs => by simpa [beq] using beqList_refl xs
  | .jobj fs => by simpa [beq] using beqFields_refl fs

theorem beqList_refl : ∀ xs : List JValue, beqList xs xs = true
  | [] => rfl
  | x :: xs => by simp [beqList, beq_refl x, beqList_refl xs]

theorem beqFields_refl : ∀ fs : List (String × JValue), beqFields fs fs = true
  | [] => rfl
  | (k, v) :: fs => by simp [beqFields, beq_refl v, beqFields_refl fs]
end

end JValue

/-- Lookup in a string-keyed association list (the model of a Go
`map[string]T` read; first binding wins, maps built by the model are
duplicate-free). -/
def lookupStr {α : Type} : List (String × α) → String → Option α
  | [], _ => none
  | (k1, v) :: rest, k => if k1 = k then some v else lookupStr rest k

/-- Insert/replace in a string-keyed association list (the model of a Go
`map[string]T` write). -/
def insertStr {α : Type} : List (String × α) → String → α → List (String × α)
  | [], k, v => [(k, v)]
  | (k1, v1) :: rest, k, v =>
    if k1 = k then (k, v) :: rest else (k1, v1) :: insertStr rest k v

/-- Read of a Go `map[string]string` with the zero-value default: a missing
key yields the empty string, exactly like `m[k]` in Go. -/
def annoVal (m : List (String × String)) (k : String) : String :=
  (lookupStr m k).getD ""

/-- Byte-wise order on keys used only to produce a canonical field order. -/
def keyLtb : List Char → List Char → Bool
  | [], [] => false
  | [], _ :: _ => true
  | _ :: _, [] => false
  | a :: as, b :: bs =>
    if a.toNat < b.toNat then true
    else if b.toNat < a.toNat then false
    else keyLtb as bs

def strLtb (a b : String) : Bool := keyLtb a.data b.data

def insFieldSorted (p : String × JValue) : List (String × JValue) → List (String × JValue)
  | [] => [p]
  | q :: rest => if strLtb p.1 q.1 then p :: q :: rest else q :: insFieldSorted p rest

def sortFields : List (String × JValue) → List (String × JValue)
  | [] => []
  | p :: fs => insFieldSorted p (sortFields fs)

mutual
/-- Canonical form of a document: the model of `json.Unmarshal` into
`map[string]interface{}`.  Object keys are deduplicated (last occurrence
wins, as in Go's decoder) and put in a canonical order, so that two
serializations are `reflect.DeepEqual` after decoding iff their canonical
forms are structurally equal. -/
def canon : JValue → JValue
  | .jnull => .jnull
  | .jbool b => .jbool b
  | .jnum n => .jnum n
  | .jstr s => .jstr s
  | .jarr xs => .jarr (canonList xs)
  | .jobj fs => .jobj (sortFields (canonFields fs))

def canonList : List JValue → List JValue
  | [] => []
  | x :: xs => canon x :: canonList xs

def canonFields : List (String × JValue) → List (String × JValue)
  | [] => []
  | (k, v) :: fs =>
    let rest := canonFields fs
    if (lookupStr rest k).isSome then rest else (k, canon v) :: rest
end

/-- Splitter at a separator character, the model of Go `strings.Split`
(char-level so that it evaluates inside the kernel). -/
def splitSepAux (sep : Char) : List Char → List Char → List String
  | [], acc => [String.mk acc.reverse]
  | c :: cs, acc =>
    if c = sep then String.mk acc.reverse :: splitSepAux sep cs []
    else splitSepAux sep cs (c :: acc)

def splitSep (sep : Char) (s : String) : List String := splitSepAux sep s.data []

example : splitSep ',' "a,b" = ["a", "b"] := rfl
example : splitSep ',' "" = [""] := rfl
example : splitSep '/' "ns/name" = ["ns", "name"] := rfl

/-! ## Data model

Modelled from the spec: the `Subscription`, `Deployable` and `Channel` API
types live in `pkg/apis` (and in the collaborator repositories), which are
not under src/; their shape follows spec section 3 and the CRD under src/.
Maps are association lists with Go-map read/write semantics; Go nil-able
maps and pointers are `Option`s (a nil map and an empty map are distinct,
as they are for `reflect.DeepEqual`). -/

structure OwnerRef where
  uid : String

structure Channel where
  ctype : String
  generation : Nat

/-- Placement descriptor.  The synthesizer only ever builds the
`local` form; anything else is carried opaquely. -/
inductive Placement where
  | localPl (b : Bool)
  | otherPl (v : JValue)

/-- Modelled from the spec: a Kubernetes label selector as consumed by the
external `ConvertLabels` helper (not code of this repository); a selector
that fails to parse is the `malformed` form. -/
inductive LabelSel where
  | valid (matchLabels : List (String × String))
  | malformed

structure PackageFilter where
  annotations : Option (List (String × String))
  labelSelector : Option LabelSel
  version : String

/-- One entry of `spec.overrides` of a Subscription or a Deployable
(`clusterName` plus a list of opaque override documents). -/
structure ClusterOverride where
  clusterName : String
  clusterOverrides : List JValue

structure SubscriptionSpec where
  channel : String
  package : String
  packageFilter : Option PackageFilter
  packageOverrides : List JValue
  overrides : List ClusterOverride
  placement : Option Placement

structure SubscriptionUnitStatus where
  phase : String
  message : String
  reason : String
  lastUpdateTime : Nat
  resourceStatus : Option JValue

structure SubscriptionPerClusterStatus where
  packages : Option (List (String × Option SubscriptionUnitStatus))

structure SubscriptionStatus where
  phase : String
  message : String
  reason : String
  lastUpdateTime : Nat
  statuses : Option (List (String × Option SubscriptionPerClusterStatus))

def emptySubStatus : SubscriptionStatus :=
  { phase := "", message := "", reason := "", lastUpdateTime := 0, statuses := none }

structure Subscription where
  apiVersion : String
  kind : String
  nspace : String
  name : String
  uid : String
  resourceVersion : String
  generation : Nat
  creationTimestamp : Nat
  selfLink : String
  annotations : Option (List (String × String))
  spec : SubscriptionSpec
  status : SubscriptionStatus

/-- An opaque `RawExtension` holding a serialized per-cluster
SubscriptionStatus report; `malformed` models bytes that fail to
unmarshal. -/
inductive RawSubStatus where
  | valid (s : SubscriptionStatus)
  | malformed

structure ResourceUnitStatus where
  phase : String
  resourceStatus : Option RawSubStatus

structure DeployableStatus where
  phase : String
  propagatedStatus : List (String × ResourceUnitStatus)

def emptyDplStatus : DeployableStatus := { phase := "", propagatedStatus := [] }

/-- An opaque `RawExtension` holding a serialized template document;
`malformed` models bytes that fail to unmarshal. -/
inductive RawTemplate where
  | valid (v : JValue)
  | malformed

structure DeployableSpec where
  template : Option RawTemplate
  overrides : List ClusterOverride
  placement : Option Placement

structure Deployable where
  name : String
  nspace : String
  labels : List (String × String)
  annotations : Option (List (String × String))
  ownerReferences : List OwnerRef
  spec : DeployableSpec
  status : DeployableStatus

/-! ## Annotation keys and phase constants (values as in the API packages) -/

def annoDeployables : String := "app.ibm.com/deployables"
def annoRollingUpdateTarget : String := "app.ibm.com/rollingupdate-target"
def annoIsGenerated : String := "app.ibm.com/is-generated"
def annoLocal : String := "app.ibm.com/is-local"
def annoSubscription : String := "app.ibm.com/subscription"
def annoChannelGeneration : String := "app.ibm.com/channel-generation"
def annoDeployableVersion : String := "app.ibm.com/deployable-version"
def phasePropagated : String := "Propagated"
def phaseFailed : String := "Failed"
def phaseDeployed : String := "Deployed"

/-! ## API-store environment and action trace

The controller-runtime client is modelled as an environment: reads return
fixed results, and each kind of mutating call has an injected outcome
(`none` = success).  Every mutating call the code issues is appended to an
action trace, whether or not the injected outcome is a failure. -/

inductive K8sErr where
  | notFound
  | other (msg : String)
  deriving DecidableEq

structure Env where
  getDpl : String → String → Except K8sErr Deployable
  getSub : String → String → Except K8sErr Subscription
  getChannel : String → String → Except K8sErr Channel
  listDpls : String → Except K8sErr (List Deployable)
  createDplErr : String → String → Option K8sErr
  updateDplErr : String → String → Option K8sErr
  deleteDplErr : String → String → Option K8sErr
  updateSubErr : Option K8sErr
  updateSubStatusErr : Option K8sErr
  now : Nat

inductive KAction where
  | createDpl (d : Deployable)
  | updateDpl (d : Deployable)
  | deleteDpl (ns name : String)
  | updateSub (s : Subscription)
  | updateSubStatus (s : Subscription)

/-- The Deployable-mutating calls of a trace (creations, updates and
deletions of Deployables; subscription metadata/status writes are not
Deployable mutations). -/
def dplActions : List KAction → List KAction
  | [] => []
  | a :: rest =>
    match a with
    | .createDpl _ => a :: dplActions rest
    | .updateDpl _ => a :: dplActions rest
    | .deleteDpl _ _ => a :: dplActions rest
    | _ => dplActions rest

/-! ## reflect.DeepEqual on subscription statuses

Field-by-field structural equality; map fields compare extensionally
(Go map equality ignores ordering), a nil map and an empty map differ,
and opaque `RawExtension` payloads compare by their bytes. -/

def optEqBy {α : Type} (f : α → α → Bool) : Option α → Option α → Bool
  | none, none => true
  | some a, some b => f a b
  | _, _ => false

def mapEqBy {α : Type} (f : α → α → Bool) (m1 m2 : List (String × α)) : Bool :=
  ((m1.map Prod.fst) ++ (m2.map Prod.fst)).all fun k =>
    optEqBy f (lookupStr m1 k) (lookupStr m2 k)

def unitStatusEq (a b : SubscriptionUnitStatus) : Bool :=
  a.phase == b.phase && a.message == b.message && a.reason == b.reason &&
  a.lastUpdateTime == b.lastUpdateTime &&
  optEqBy JValue.beq a.resourceStatus b.resourceStatus

def perClusterEq (a b : SubscriptionPerClusterStatus) : Bool :=
  optEqBy (mapEqBy (optEqBy unitStatusEq)) a.packages b.packages

def statusEq (a b : SubscriptionStatus) : Bool :=
  a.phase == b.phase && a.message == b.message && a.reason == b.reason &&
  a.lastUpdateTime == b.lastUpdateTime &&
  optEqBy (mapEqBy (optEqBy perClusterEq)) a.statuses b.statuses

/-! ## Serialization of the subscription clone (`json.Marshal(subep)`) -/

def encodeStrMap (m : List (String × String)) : JValue :=
  .jobj (m.map fun p => (p.1, .jstr p.2))

def encodePlacement : Placement → JValue
  | .localPl b => .jobj [("local", .jbool b)]
  | .otherPl v => v

def encodeLabelSel : LabelSel → JValue
  | .valid m => .jobj [("matchLabels", encodeStrMap m)]
  | .malformed => .jobj [("matchExpressions", .jstr "malformed")]

def encodePackageFilter (pf : PackageFilter) : JValue :=
  .jobj [("annotations", match pf.annotations with
            | some m => encodeStrMap m
            | none => .jnull),
         ("labelSelector", match pf.labelSelector with
            | some ls => encodeLabelSel ls
            | none => .jnull),
         ("version", .jstr pf.version)]

def encodeOverride (ov : ClusterOverride) : JValue :=
  .jobj [("clusterName", .jstr ov.clusterName),
         ("clusterOverrides", .jarr ov.clusterOverrides)]

def encodeSubSpec (sp : SubscriptionSpec) : JValue :=
  .jobj [("channel", .jstr sp.channel),
         ("name", .jstr sp.package),
         ("packageFilter", match sp.packageFilter with
            | some pf => encodePackageFilter pf
            | none => .jnull),
         ("packageOverrides", .jarr sp.packageOverrides),
         ("overrides", .jarr (sp.overrides.map encodeOverride)),
         ("placement", match sp.placement with
            | some pl => encodePlacement pl
            | none => .jnull)]

def encodeUnitStatus (u : SubscriptionUnitStatus) : JValue :=
  .jobj [("phase", .jstr u.phase), ("message", .jstr u.message),
         ("reason", .jstr u.reason),
         ("lastUpdateTime", .jnum u.lastUpdateTime),
         ("resourceStatus", (u.resourceStatus).getD .jnull)]

def encodePerClusterStatus (p : SubscriptionPerClusterStatus) : JValue :=
  match p.packages with
  | none => .jobj []
  | some m => .jobj [("packages", .jobj (m.map fun q =>
      (q.1, match q.2 with
            | some u => encodeUnitStatus u
            | none => .jnull)))]

def encodeSubStatus (st : SubscriptionStatus) : JValue :=
  .jobj [("phase", .jstr st.phase), ("message", .jstr st.message),
         ("reason", .jstr st.reason),
         ("lastUpdateTime", .jnum st.lastUpdateTime),
         ("statuses", match st.statuses with
            | none => .jnull
            | some m => .jobj (m.map fun q =>
                (q.1, match q.2 with
                      | some p => encodePerClusterStatus p
                      | none => .jnull)))]

/-- Serialization of a Subscription object as the Deployable template
payload (`json.Marshal` of the clone: deterministic field order). -/
def marshalSubscription (s : Subscription) : JValue :=
  .jobj [("apiVersion", .jstr s.apiVersion),
         ("kind", .jstr s.kind),
         ("metadata", .jobj
            [("name", .jstr s.name), ("namespace", .jstr s.nspace),
             ("uid", .jstr s.uid),
             ("resourceVersion", .jstr s.resourceVersion),
             ("generation", .jnum s.generation),
             ("creationTimestamp", .jnum s.creationTimestamp),
             ("selfLink", .jstr s.selfLink),
             ("annotations", match s.annotations with
                | some m => encodeStrMap m
                | none => .jnull)]),
         ("spec", encodeSubSpec s.spec),
         ("status", encodeSubStatus s.status)]

/-! ## Version-range check (spec-modelled) -/

def charsToNat : List Char → Option Nat → Option Nat
  | [], acc => acc
  | c :: cs, acc =>
    if c.isDigit then
      charsToNat cs (some ((acc.getD 0) * 10 + (c.toNat - 48)))
    else none

def parseNatStr (s : String) : Option Nat :=
  match s.data with
  | [] => none
  | l => charsToNat l none

def parseVer (s : String) : Option (Nat × Nat × Nat) :=
  match splitSep '.' s with
  | [a, b, c] =>
    match parseNatStr a, parseNatStr b, parseNatStr c with
    | some x, some y, some z => some (x, y, z)
    | _, _, _ => none
  | _ => none

inductive VerRange where
  | exact (maj minr pat : Nat)
  | wildPatch (maj minr : Nat)
  | wildMinor (maj : Nat)

def parseRange (s : String) : Option VerRange :=
  match splitSep '.' s with
  | [a, b, c] =>
    match parseNatStr a, parseNatStr b with
    | some x, some y =>
      if c = "x" ∨ c = "X" then some (.wildPatch x y)
      else match parseNatStr c with
        | some z => some (.exact x y z)
        | none => none
    | _, _ => none
  | [a, b] =>
    match parseNatStr a with
    | some x => if b = "x" ∨ b = "X" then some (.wildMinor x) else none
    | none => none
  | _ => none

def rangeMatches : VerRange → Nat × Nat × Nat → Bool
  | .exact x y z, (a, b, c) => x == a && y == b && z == c
  | .wildPatch x y, (a, b, _) => x == a && y == b
  | .wildMinor x, (a, _, _) => x == a

/-- Modelled from the spec: `SemverCheck` lives in `pkg/utils` which is not
under src/.  Spec section 4.1: a version-range expression is evaluated
against the artifact's recorded version annotation with semantic-version
range semantics (`1.2.x` matches `1.2.<any>`); an absent or unparsable
artifact version — or an unparsable range expression — gives non-match. -/
def semverCheck (vsub vdpl : String) : Bool :=
  match parseRange vsub, parseVer vdpl with
  | some r, some v => rangeMatches r v
  | _, _ => false

example : semverCheck "1.2.x" "1.2.9" = true := rfl
example : semverCheck "1.2.x" "1.3.0" = false := rfl
example : semverCheck "1.2.x" "" = false := rfl
example : semverCheck "garbage" "1.2.9" = false := rfl

/-! ## Embedded source functions (`pkg/controller/mcmhub/hub.go`) -/

/-- Channel reference parsing shared by `GetChannelNamespaceType` and
`GetChannelGeneration` (hub.go:146-158, 173-184): a `"namespace/name"`
channel splits into both parts; any other non-empty form keeps the
subscription's namespace and an empty name; an empty channel yields empty
namespace and name. -/
def channelNsName (s : Subscription) : String × String :=
  if s.spec.channel ≠ "" then
    match splitSep '/' s.spec.channel with
    | [a, b] => (a, b)
    | _ => (s.nspace, "")
  else ("", "")

/-- GetChannelNamespaceType (hub.go:145-169). -/
def getChannelNamespaceType (env : Env) (s : Subscription) : String × String :=
  let p := channelNsName s
  match env.getChannel p.1 p.2 with
  | .ok ch => (p.1, ch.ctype)
  | .error _ => (p.1, "")

/-- GetChannelGeneration (hub.go:172-195). -/
def getChannelGeneration (env : Env) (s : Subscription) : Except K8sErr String :=
  let p := channelNsName s
  match env.getChannel p.1 p.2 with
  | .ok ch => .ok (toString ch.generation)
  | .error e => .error e

/-- String-valued fields of a JSON object; `none` when any value is not a
string (`unstructured.GetAnnotations` returns nil in that case). -/
def stringFields : List (String × JValue) → Option (List (String × String))
  | [] => some []
  | (k, v) :: rest =>
    match v with
    | .jstr s => (stringFields rest).map fun r => (k, s) :: r
    | _ => none

/-- `metadata.annotations` of a decoded template document
(`dpltemplate.GetAnnotations()` in hub.go:533). -/
def jGetAnnotationMap (v : JValue) : List (String × String) :=
  match v with
  | .jobj fs =>
    match lookupStr fs "metadata" with
    | some (.jobj mfs) =>
      match lookupStr mfs "annotations" with
      | some (.jobj afs) => (stringFields afs).getD []
      | _ => []
    | _ => []
  | _ => []

/-- The template-annotation fallback merge of hub.go:527-540: for each
annotation embedded in the decoded template payload, copy it into the
artifact's annotation map only when the artifact-level value reads as the
empty string (which covers both a missing key and a key stored with an
empty value). -/
def mergedDplAnno (dpl : Deployable) : List (String × String) :=
  let dplanno := (dpl.annotations).getD []
  match dpl.spec.template with
  | some (.valid t) =>
    (jGetAnnotationMap (canon t)).foldl
      (fun acc p => if annoVal acc p.1 = "" then insertStr acc p.1 p.2 else acc)
      dplanno
  | _ => dplanno

/-- checkDeployableBySubcriptionPackageFilter (hub.go:513-573).  Note the
aliasing of hub.go:522/542: when the artifact's annotation map is non-nil,
the merge loop mutates that same map, so the version annotation is read
from the merged map; when it is nil, the merge writes into a fresh map and
the version annotation reads as empty. -/
def checkDeployableBySubPackageFilter (sub : Subscription) (dpl : Deployable) : Bool :=
  match sub.spec.packageFilter with
  | none => true
  | some pf =>
    if sub.spec.package ≠ "" ∧ sub.spec.package ≠ dpl.name then false
    else
      let merged := mergedDplAnno dpl
      let vdpl := match dpl.annotations with
        | some _ => annoVal merged annoDeployableVersion
        | none => ""
      let annoOk := match pf.annotations with
        | none => true
        | some req => req.all fun p => annoVal merged p.1 == p.2
      if annoOk = false then false
      else if pf.version ≠ "" ∧ semverCheck pf.version vdpl = false then false
      else true

/-- Modelled from the spec: label-selector evaluation is delegated to the
external API store (`client.List` with a converted selector); a valid
selector keeps exactly the objects whose labels contain every
`matchLabels` pair. -/
def selectorKeeps (m : List (String × String)) (d : Deployable) : Bool :=
  m.all fun p => lookupStr d.labels p.1 == some p.2

/-- getSubscriptionDeployables (hub.go:473-511).  `none` models the Go nil
map returned on a selector-conversion failure (hub.go:483-487) or a list
failure (hub.go:492-497). -/
def getSubscriptionDeployables (env : Env) (sub : Subscription) :
    Option (List (String × Deployable)) :=
  let chNs := (getChannelNamespaceType env sub).1
  let selOpt : Option (Option (List (String × String))) :=
    match sub.spec.packageFilter with
    | some pf =>
      match pf.labelSelector with
      | some .malformed => none
      | some (.valid m) => some (some m)
      | none => some none
    | none => some none
  match selOpt with
  | none => none
  | some sel =>
    match env.listDpls chNs with
    | .error _ => none
    | .ok items =>
      let items := match sel with
        | none => items
        | some m => items.filter fun d => selectorKeeps m d
      some (items.foldl
        (fun acc d =>
          if checkDeployableBySubPackageFilter sub d then
            insertStr acc (d.nspace ++ "/" ++ d.name) d
          else acc)
        [])

/-- The key-set comparison loop of hub.go:217-224: walk the freshly
matched keys; a key missing from the decoded annotation set flags a change
and stops; otherwise the key is removed from the decoded set. -/
def checkKeysLoop : List String → List String → Bool × List String
  | [], org => (false, org)
  | k :: ks, org =>
    if k ∈ org then checkKeysLoop ks (org.erase k)
    else (true, org)

/-- Go map construction from the split annotation (hub.go:205-208):
duplicate keys collapse. -/
def dedupKeys : List String → List String
  | [] => []
  | k :: ks => let rest := dedupKeys ks
               if k ∈ rest then rest else k :: rest

/-- The comma-join loop of hub.go:231-238. -/
def goJoinComma (l : List String) : String :=
  l.foldl (fun acc k => if acc = "" then k else acc ++ "," ++ k) ""

/-- Decoding of the bookkeeping annotation (hub.go:203-209): the empty
string decodes to no keys, anything else splits at commas. -/
def decodeDplAnno (s : String) : List String :=
  if s = "" then [] else splitSep ',' s

/-- UpdateDeployablesAnnotation (hub.go:198-259).  Returns the reported
change flag, the (possibly rewritten) in-memory subscription and the trace
of mutating calls.  A failure of the subscription update itself is only
logged (hub.go:250-253), so the result does not depend on it. -/
def updateDeployablesAnno (env : Env) (sub : Subscription) :
    Bool × Subscription × List KAction :=
  let orgkeys : List String :=
    match sub.annotations with
    | none => []
    | some m => decodeDplAnno (annoVal m annoDeployables)
  let orgmap := dedupKeys orgkeys
  let allDpls := (getSubscriptionDeployables env sub).getD []
  let matched := allDpls.map Prod.fst
  let loopRes := checkKeysLoop matched orgmap
  let updated := loopRes.1 || !loopRes.2.isEmpty
  if updated then
    let dplstr := goJoinComma matched
    let subanno := insertStr ((sub.annotations).getD []) annoDeployables dplstr
    let sub' := { sub with annotations := some subanno }
    match env.updateSubErr with
    | some _ => (true, sub', [KAction.updateSub sub'])
    | none => (true, sub', [KAction.updateSub sub'])
  else (false, sub, [])

/-- The owner-gated deletion loop of hub.go:269-278 / 287-297: for each
owner reference whose UID matches the subscription's, issue a delete; a
delete failure returns immediately. -/
def deleteOwned (env : Env) (subUid : String) (d : Deployable) :
    List OwnerRef → Except K8sErr Unit × List KAction
  | [] => (.ok (), [])
  | o :: os =>
    if o.uid = subUid then
      match env.deleteDplErr d.nspace d.name with
      | some e => (.error e, [KAction.deleteDpl d.nspace d.name])
      | none =>
        let rest := deleteOwned env subUid d os
        (rest.1, KAction.deleteDpl d.nspace d.name :: rest.2)
    else deleteOwned env subUid d os

/-- stopDeploySubscription (hub.go:263-324).  A fetch failure on either
Deployable silently skips its deletion (only `err == nil` enters the
owner-check branch).  The saved status is compared with
`reflect.DeepEqual(savest, sub.Status)` where `savest` is a
`*SubscriptionStatus` and `sub.Status` a `SubscriptionStatus`: the two
interface values have distinct dynamic types, so `DeepEqual` is always
false and the timestamped status write always happens; the model encodes
that condition as always-true. -/
def stopDeploySubscription (env : Env) (sub : Subscription) :
    Except K8sErr Unit × Subscription × List KAction :=
  let r1 : Except K8sErr Unit × List KAction :=
    match env.getDpl sub.nspace (sub.name ++ "-deployable") with
    | .ok hubdpl => deleteOwned env sub.uid hubdpl hubdpl.ownerReferences
    | .error _ => (.ok (), [])
  match r1.1 with
  | .error e => (.error e, sub, r1.2)
  | .ok _ =>
    let r2 : Except K8sErr Unit × List KAction :=
      match env.getDpl sub.nspace (sub.name ++ "-target-deployable") with
      | .ok tdpl => deleteOwned env sub.uid tdpl tdpl.ownerReferences
      | .error _ => (.ok (), [])
    match r2.1 with
    | .error e => (.error e, sub, r1.2 ++ r2.2)
    | .ok _ =>
      let st0 := sub.status
      let cleared : Option (List (String × Option SubscriptionPerClusterStatus)) :=
        st0.statuses.map fun _ => []
      let st1 := { st0 with statuses := cleared }
      let st2 := if st1.phase = phasePropagated then
          { st1 with phase := "", message := "", reason := "" }
        else st1
      let sub' := { sub with status := { st2 with lastUpdateTime := env.now } }
      match env.updateSubStatusErr with
      | some e => (.error e, sub', r1.2 ++ r2.2 ++ [KAction.updateSubStatus sub'])
      | none => (.ok (), sub', r1.2 ++ r2.2 ++ [KAction.updateSubStatus sub'])

/-- Whether a per-cluster report can be lifted without an unmarshal error
(hub.go:442-447): only a cluster reporting Deployed with a malformed
resource-status payload fails. -/
def decodeOk (v : ResourceUnitStatus) : Bool :=
  if v.phase = phaseDeployed then
    match v.resourceStatus with
    | some .malformed => false
    | _ => true
  else true

/-- One per-cluster entry of the aggregate (hub.go:439-451): a cluster
reporting Deployed contributes the `"/"`-keyed entry of its decoded
nested status (a missing payload decodes as the empty status), any other
phase contributes an empty per-cluster entry. -/
def liftEntry (v : ResourceUnitStatus) :
    Except K8sErr (Option SubscriptionPerClusterStatus) :=
  if v.phase = phaseDeployed then
    match v.resourceStatus with
    | some .malformed => .error (.other "unmarshal resource status")
    | some (.valid mcs) =>
      .ok (match mcs.statuses with
           | none => none
           | some m => (lookupStr m "/").join)
    | none =>
      .ok (match emptySubStatus.statuses with
           | none => none
           | some m => (lookupStr m "/").join)
  else .ok (some { packages := none })

/-- The aggregation loop of hub.go:438-452, building the per-cluster map;
an unmarshal failure aborts the whole pass. -/
def buildStatuses : List (String × ResourceUnitStatus) →
    Except K8sErr (List (String × Option SubscriptionPerClusterStatus))
  | [] => .ok []
  | (k, v) :: rest =>
    match liftEntry v with
    | .error e => .error e
    | .ok ent =>
      match buildStatuses rest with
      | .error e => .error e
      | .ok m => .ok ((k, ent) :: m)

/-- The compare-and-write tail of hub.go:455-470: only a structural
difference triggers a timestamped status write, and a failure of that
write is logged and swallowed (the function returns nil regardless). -/
def finishStatus (env : Env) (sub : Subscription) (newst : SubscriptionStatus) :
    Except K8sErr Unit × Subscription × List KAction :=
  if statusEq newst sub.status then (.ok (), sub, [])
  else
    let sub' := { sub with status := { newst with lastUpdateTime := env.now } }
    match env.updateSubStatusErr with
    | some _ => (.ok (), sub', [KAction.updateSubStatus sub'])
    | none => (.ok (), sub', [KAction.updateSubStatus sub'])

/-- updateSubscriptionStatus (hub.go:426-471). -/
def updateSubscriptionStatus (env : Env) (sub : Subscription) (found : Deployable) :
    Except K8sErr Unit × Subscription × List KAction :=
  if found.status.phase = phaseFailed then
    finishStatus env sub
      { phase := phasePropagated, message := "", reason := "",
        lastUpdateTime := sub.status.lastUpdateTime, statuses := none }
  else
    match buildStatuses found.status.propagatedStatus with
    | .error e => (.error e, sub, [])
    | .ok m =>
      finishStatus env sub
        { phase := phasePropagated, message := "", reason := "",
          lastUpdateTime := sub.status.lastUpdateTime, statuses := some m }

/-- The type of the external `dplutils.OverrideTemplate` collaborator
(field-path-based document mutation from the deployable utils package,
outside this repository): applies a list of override documents to a
decoded template, possibly failing. -/
def ApplyOv : Type := JValue → List JValue → Except String JValue

/-- The override loop of hub.go:394-421: a `"/"` entry is applied to the
decoded template payload (which is then re-serialized in place), any other
entry is deep-copied onto the Deployable's override list. -/
def applyOverridesLoop (applyOv : ApplyOv) (dpl : Deployable) :
    List ClusterOverride → Except K8sErr Deployable
  | [] => .ok dpl
  | ov :: rest =>
    if ov.clusterName = "/" then
      match dpl.spec.template with
      | some (.valid t) =>
        match applyOv t ov.clusterOverrides with
        | .error m => .error (.other m)
        | .ok t2 =>
          applyOverridesLoop applyOv
            { dpl with spec := { dpl.spec with template := some (.valid t2) } } rest
      | _ => .error (.other "unmarshal template")
    else
      applyOverridesLoop applyOv
        { dpl with spec := { dpl.spec with overrides := dpl.spec.overrides ++ [ov] } } rest

/-- The pre-override part of prepareDeployableForSubscription
(hub.go:326-392): clone the subscription, strip identity, force local
placement and clear overrides on the clone, stamp the subscription and
(best-effort) channel-generation annotations, serialize the clone as the
template, and set the owner reference. -/
def synthClone (env : Env) (sub : Subscription) (rootSub : Option Subscription) :
    Subscription :=
  let subep0 := { sub with
    spec := { sub.spec with placement := some (.localPl true), overrides := [] },
    resourceVersion := "", uid := "", creationTimestamp := 0, generation := 1,
    selfLink := "" }
  let epName := match rootSub with
    | none => sub.name
    | some rs => rs.name
  let subAnnoVal := match rootSub with
    | none => subep0.nspace ++ "/" ++ epName
    | some rs => rs.nspace ++ "/" ++ rs.name
  let anno0 := [(annoSubscription, subAnnoVal)]
  let subep1 := { subep0 with name := epName }
  let anno1 := if subep1.spec.channel ≠ "" then
      match getChannelGeneration env subep1 with
      | .ok g => insertStr anno0 annoChannelGeneration g
      | .error _ => anno0
    else anno0
  { subep1 with
    annotations := some anno1,
    apiVersion := "app.ibm.com/v1alpha1", kind := "Subscription",
    status := emptySubStatus }

def synthesizeBaseDpl (env : Env) (sub : Subscription) (rootSub : Option Subscription) :
    Deployable :=
  let subep := synthClone env sub rootSub
  { name := sub.name ++ "-deployable", nspace := sub.nspace,
    labels := [],
    annotations := some [(annoLocal, "false"), (annoIsGenerated, "true")],
    ownerReferences := [{ uid := sub.uid }],
    spec := { template := some (.valid (marshalSubscription subep)),
              overrides := [],
              placement := sub.spec.placement },
    status := emptyDplStatus }

/-- prepareDeployableForSubscription (hub.go:326-424). -/
def prepareDeployableForSubscription (applyOv : ApplyOv) (env : Env)
    (sub : Subscription) (rootSub : Option Subscription) : Except K8sErr Deployable :=
  applyOverridesLoop applyOv (synthesizeBaseDpl env sub rootSub) sub.spec.overrides

/-- Decoding of a stored template payload (`json.Unmarshal` into an
`unstructured.Unstructured`, hub.go:95-109 and 641-655): gives the
canonical decoded document, or nothing when the bytes are malformed or the
template is absent. -/
def decodeTemplate : Option RawTemplate → Option JValue
  | some (.valid v) => some (canon v)
  | _ => none

/-- The generated/non-local bookkeeping stamps of hub.go:117-124 and
662-669. -/
def stampGenerated (d : Deployable) : Deployable :=
  let anno := insertStr (insertStr ((d.annotations).getD []) annoIsGenerated "true")
    annoLocal "false"
  { d with annotations := some anno }

/-- Deep equality of override-list entries (`reflect.DeepEqual` on
`[]Overrides`: order-sensitive, raw payloads byte-compared). -/
def ovEq (a b : ClusterOverride) : Bool :=
  a.clusterName == b.clusterName &&
  JValue.beqList a.clusterOverrides b.clusterOverrides

def ovListEq : List ClusterOverride → List ClusterOverride → Bool
  | [], [] => true
  | a :: as, b :: bs => ovEq a b && ovListEq as bs
  | _, _ => false

/-- updateTargetSubscriptionDeployable (hub.go:619-685): idempotent
create-or-update of the rolling-update target Deployable, comparing both
decoded templates and the override lists. -/
def updateTargetSubscriptionDeployable (env : Env) (tdpl : Deployable) :
    Except K8sErr Unit × List KAction :=
  match env.getDpl tdpl.nspace tdpl.name with
  | .error .notFound =>
    (match env.createDplErr tdpl.nspace tdpl.name with
     | some e => (.error e, [KAction.createDpl tdpl])
     | none => (.ok (), [KAction.createDpl tdpl]))
  | .error e => (.error e, [])
  | .ok found =>
    match decodeTemplate tdpl.spec.template, decodeTemplate found.spec.template with
    | some orgTpl, some fndTpl =>
      if JValue.beq orgTpl fndTpl && ovListEq tdpl.spec.overrides found.spec.overrides then
        (.ok (), [])
      else
        let found' := stampGenerated { found with spec := tdpl.spec }
        match env.updateDplErr found'.nspace found'.name with
        | some e => (.error e, [KAction.updateDpl found'])
        | none => (.ok (), [KAction.updateDpl found'])
    | _, _ => (.error (.other "unmarshal"), [])

/-- createTargetDplForRollingUpdate (hub.go:576-617). -/
def createTargetDplForRollingUpdate (applyOv : ApplyOv) (env : Env)
    (sub : Subscription) : Except K8sErr (Option Deployable) × List KAction :=
  let target := annoVal ((sub.annotations).getD []) annoRollingUpdateTarget
  if sub.annotations = none ∨ target = "" then (.ok none, [])
  else
    match env.getSub sub.nspace target with
    | .error .notFound => (.ok none, [])
    | .error e => (.error e, [])
    | .ok targetSub =>
      match prepareDeployableForSubscription applyOv env targetSub (some sub) with
      | .error e => (.error e, [])
      | .ok d0 =>
        let targetDpl := { d0 with
          name := sub.name ++ "-target-deployable", nspace := sub.nspace }
        let r := updateTargetSubscriptionDeployable env targetDpl
        (match r.1 with
         | .ok _ => (.ok (some targetDpl), r.2)
         | .error e => (.error e, r.2))

/-- doMCMHubReconcile (hub.go:43-142): one hub reconciliation cycle. -/
def doMCMHubReconcile (applyOv : ApplyOv) (env : Env) (sub : Subscription) :
    Except K8sErr Unit × Subscription × List KAction :=
  match updateDeployablesAnno env sub with
  | (true, sub1, acts1) => (.ok (), sub1, acts1)
  | (false, sub1, acts1) =>
    match sub1.spec.placement with
    | none =>
      let r := stopDeploySubscription env sub1
      (r.1, r.2.1, acts1 ++ r.2.2)
    | some _ =>
      match prepareDeployableForSubscription applyOv env sub1 none with
      | .error e => (.error e, sub1, acts1)
      | .ok dpl0 =>
        match createTargetDplForRollingUpdate applyOv env sub1 with
        | (.error e, a2) => (.error e, sub1, acts1 ++ a2)
        | (.ok tOpt, a2) =>
          let dpl := match tOpt with
            | some t =>
              let anno := insertStr ((dpl0.annotations).getD []) annoRollingUpdateTarget t.name
              { dpl0 with annotations := some anno }
            | none => dpl0
          match env.getDpl dpl.nspace dpl.name with
          | .error .notFound =>
            let res : Except K8sErr Unit := match env.createDplErr dpl.nspace dpl.name with
              | some e => .error e
              | none => .ok ()
            (res, sub1, acts1 ++ a2 ++ [KAction.createDpl dpl])
          | .error e => (.error e, sub1, acts1 ++ a2)
          | .ok found =>
            match decodeTemplate dpl.spec.template, decodeTemplate found.spec.template with
            | some org, some fnd =>
              if JValue.beq org fnd then
                let r := updateSubscriptionStatus env sub1 found
                (r.1, r.2.1, acts1 ++ a2 ++ r.2.2)
              else
                let found' := stampGenerated { found with spec := dpl.spec }
                let res : Except K8sErr Unit := match env.updateDplErr found'.nspace found'.name with
                  | some e => .error e
                  | none => .ok ()
                (res, sub1, acts1 ++ a2 ++ [KAction.updateDpl found'])
            | _, _ => (.error (.other "unmarshal"), sub1, acts1 ++ a2)

/-! ## Helper objects for concrete runs -/

def emptyDeployable : Deployable :=
  { name := "", nspace := "", labels := [], annotations := none,
    ownerReferences := [],
    spec := { template := none, overrides := [], placement := none },
    status := emptyDplStatus }

def baseEnv : Env :=
  { getDpl := fun _ _ => .error .notFound,
    getSub := fun _ _ => .error .notFound,
    getChannel := fun _ _ => .error .notFound,
    listDpls := fun _ => .ok [],
    createDplErr := fun _ _ => none,
    updateDplErr := fun _ _ => none,
    deleteDplErr := fun _ _ => none,
    updateSubErr := none, updateSubStatusErr := none, now := 42 }

/-! ## C2: global-override application order and separation -/

/-- Reference form of the override merge following the spec's words
(section 4.2): the `"/"` entries are applied to the template payload one
after the other in input order, each later entry seeing the result of the
earlier ones. -/
def foldSlashM (applyOv : ApplyOv) : JValue → List ClusterOverride → Except String JValue
  | t, [] => .ok t
  | t, ov :: rest =>
    match applyOv t ov.clusterOverrides with
    | .error m => .error m
    | .ok t2 => foldSlashM applyOv t2 rest

theorem applyLoop_cons_slash (applyOv : ApplyOv) (dpl : Deployable)
    (ov : ClusterOverride) (rest : List ClusterOverride) (t0 : JValue)
    (hc : ov.clusterName = "/") (ht : dpl.spec.template = some (.valid t0)) :
    applyOverridesLoop applyOv dpl (ov :: rest) =
      (match applyOv t0 ov.clusterOverrides with
       | .error m => .error (.other m)
       | .ok t2 => applyOverridesLoop applyOv
           { dpl with spec := { dpl.spec with template := some (.valid t2) } } rest) := by
  simp [applyOverridesLoop, hc, ht]

theorem applyLoop_cons_named (applyOv : ApplyOv) (dpl : Deployable)
    (ov : ClusterOverride) (rest : List ClusterOverride)
    (hc : ov.clusterName ≠ "/") :
    applyOverridesLoop applyOv dpl (ov :: rest) =
      applyOverridesLoop applyOv
        { dpl with spec := { dpl.spec with overrides := dpl.spec.overrides ++ [ov] } } rest := by
  simp [applyOverridesLoop, hc]

theorem applyLoop_char (applyOv : ApplyOv) :
    ∀ (ovs : List ClusterOverride) (dpl : Deployable) (t0 : JValue) (d : Deployable),
    dpl.spec.template = some (.valid t0) →
    applyOverridesLoop applyOv dpl ovs = .ok d →
    ∃ t, foldSlashM applyOv t0 (ovs.filter fun ov => ov.clusterName == "/") = .ok t
      ∧ d = { dpl with spec := { dpl.spec with
            template := some (.valid t),
            overrides := dpl.spec.overrides ++ (ovs.filter fun ov => !(ov.clusterName == "/")) } } := by
  intro ovs
  induction ovs with
  | nil =>
    intro dpl t0 d ht hd
    refine ⟨t0, rfl, ?_⟩
    simp only [applyOverridesLoop] at hd
    cases hd
    obtain ⟨nm, ns, lb, an, ow, ⟨tp, ovr, plc⟩, st⟩ := dpl
    simp_all
  | cons ov rest ih =>
    intro dpl t0 d ht hd
    by_cases hc : ov.clusterName = "/"
    · rw [applyLoop_cons_slash applyOv dpl ov rest t0 hc ht] at hd
      cases hap : applyOv t0 ov.clusterOverrides with
      | error m => rw [hap] at hd; cases hd
      | ok t2 =>
        rw [hap] at hd
        obtain ⟨t, hfold, hdeq⟩ := ih _ t2 d rfl hd
        refine ⟨t, ?_, ?_⟩
        · have hb : (ov.clusterName == "/") = true := by simp [hc]
          simp only [List.filter, hb, foldSlashM, hap, hfold]
        · rw [hdeq]
          have hb : (ov.clusterName == "/") = true := by simp [hc]
          obtain ⟨nm, ns, lb, an, ow, ⟨tp, ovr, plc⟩, st⟩ := dpl
          simp_all [List.filter]
    · rw [applyLoop_cons_named applyOv dpl ov rest hc] at hd
      obtain ⟨t, hfold, hdeq⟩ :=
        ih { dpl with spec := { dpl.spec with overrides := dpl.spec.overrides ++ [ov] } }
          t0 d ht hd
      refine ⟨t, ?_, ?_⟩
      · have hb : (ov.clusterName == "/") = false := by simp [hc]
        simp only [List.filter, hb, hfold]
      · rw [hdeq]
        have hb : (ov.clusterName == "/") = false := by simp [hc]
        obtain ⟨nm, ns, lb, an, ow, ⟨tp, ovr, plc⟩, st⟩ := dpl
        simp only [List.filter, hb]
        simp_all

/-- C2: in prepareDeployableForSubscription, every override entry with
clusterName `"/"` is applied to the template payload in input order (each
later `"/"` entry sees the result of the earlier ones, `foldSlashM`) and is
dropped from the returned Deployable's `spec.overrides`; every entry with
any other clusterName is copied verbatim into `spec.overrides` and leaves
the template payload unchanged. -/
theorem c2_override_merge (applyOv : ApplyOv) (env : Env) (sub : Subscription)
    (rootSub : Option Subscription) (d : Deployable)
    (h : prepareDeployableForSubscription applyOv env sub rootSub = .ok d) :
    d.spec.overrides = (sub.spec.overrides.filter fun ov => !(ov.clusterName == "/"))
    ∧ ∃ t, foldSlashM applyOv (marshalSubscription (synthClone env sub rootSub))
          (sub.spec.overrides.filter fun ov => ov.clusterName == "/") = .ok t
        ∧ d.spec.template = some (.valid t) := by
  obtain ⟨t, hf, hdeq⟩ :=
    applyLoop_char applyOv sub.spec.overrides (synthesizeBaseDpl env sub rootSub)
      (marshalSubscription (synthClone env sub rootSub)) d rfl h
  subst hdeq
  refine ⟨?_, t, hf, rfl⟩
  simp [synthesizeBaseDpl]

def c2Apply : ApplyOv := fun t ovs => .ok (.jarr (t :: ovs))

def c2Sub : Subscription :=
  { apiVersion := "", kind := "", nspace := "ns", name := "s",
    uid := "u1", resourceVersion := "5", generation := 3,
    creationTimestamp := 9, selfLink := "x", annotations := none,
    spec := { channel := "", package := "", packageFilter := none,
              packageOverrides := [],
              overrides := [⟨"/", [.jstr "p1"]⟩, ⟨"clusterA", [.jstr "q"]⟩,
                            ⟨"/", [.jstr "p2"]⟩],
              placement := some (.localPl false) },
    status := emptySubStatus }

def c2Dpl : Deployable :=
  match prepareDeployableForSubscription c2Apply baseEnv c2Sub none with
  | .ok d => d
  | .error _ => emptyDeployable

theorem c2_override_merge_witness :
    c2Dpl.spec.overrides = (c2Sub.spec.overrides.filter fun ov => !(ov.clusterName == "/"))
    ∧ ∃ t, foldSlashM c2Apply (marshalSubscription (synthClone baseEnv c2Sub none))
          (c2Sub.spec.overrides.filter fun ov => ov.clusterName == "/") = .ok t
        ∧ c2Dpl.spec.template = some (.valid t) :=
  c2_override_merge c2Apply baseEnv c2Sub none c2Dpl rfl

def idApply : ApplyOv := fun t _ => .ok t

/-! ## C6: rolling-update target fetch error handling -/

/-- C6: for a subscription carrying a rollout-target annotation, a
not-found failure when fetching the named target subscription makes
createTargetDplForRollingUpdate a no-op returning no Deployable and no
error, while any other fetch failure is returned to the caller. -/
theorem c6_rollout_fetch (applyOv : ApplyOv) (env : Env) (sub : Subscription)
    (am : List (String × String))
    (ha : sub.annotations = some am)
    (ht : annoVal am annoRollingUpdateTarget ≠ "") :
    (env.getSub sub.nspace (annoVal am annoRollingUpdateTarget) = .error .notFound →
       createTargetDplForRollingUpdate applyOv env sub = (.ok none, []))
    ∧ (∀ m, env.getSub sub.nspace (annoVal am annoRollingUpdateTarget) = .error (.other m) →
       createTargetDplForRollingUpdate applyOv env sub = (.error (.other m), [])) := by
  constructor
  · intro h
    simp [createTargetDplForRollingUpdate, ha, ht, h]
  · intro m h
    simp [createTargetDplForRollingUpdate, ha, ht, h]

def c6Sub : Subscription :=
  { apiVersion := "", kind := "", nspace := "ns", name := "s",
    uid := "u1", resourceVersion := "", generation := 1,
    creationTimestamp := 0, selfLink := "",
    annotations := some [(annoRollingUpdateTarget, "t1")],
    spec := { channel := "", package := "", packageFilter := none,
              packageOverrides := [], overrides := [],
              placement := some (.localPl false) },
    status := emptySubStatus }

theorem c6_rollout_fetch_witness :
    (baseEnv.getSub c6Sub.nspace (annoVal [(annoRollingUpdateTarget, "t1")] annoRollingUpdateTarget) = .error .notFound →
       createTargetDplForRollingUpdate idApply baseEnv c6Sub = (.ok none, []))
    ∧ (∀ m, baseEnv.getSub c6Sub.nspace (annoVal [(annoRollingUpdateTarget, "t1")] annoRollingUpdateTarget) = .error (.other m) →
       createTargetDplForRollingUpdate idApply baseEnv c6Sub = (.error (.other m), [])) :=
  c6_rollout_fetch idApply baseEnv c6Sub [(annoRollingUpdateTarget, "t1")] rfl (by decide)

/-! ## C4 and C7: status aggregation -/

/-- The per-cluster contribution of a cluster report as the code computes
it on the non-failing path: a cluster reporting Deployed contributes the
`"/"`-keyed per-package entry of its decoded nested resource-status
payload (none when the payload is absent or carries no such entry), and
any other phase contributes an empty per-cluster entry. -/
def entryFor (v : ResourceUnitStatus) : Option SubscriptionPerClusterStatus :=
  if v.phase = phaseDeployed then
    match v.resourceStatus with
    | some (.valid mcs) =>
      (match mcs.statuses with
       | none => none
       | some m => (lookupStr m "/").join)
    | _ => none
  else some { packages := none }

theorem liftEntry_of_decodeOk (v : ResourceUnitStatus) (h : decodeOk v = true) :
    liftEntry v = .ok (entryFor v) := by
  by_cases hp : v.phase = phaseDeployed
  · cases hrs : v.resourceStatus with
    | none => simp [liftEntry, entryFor, hp, hrs, emptySubStatus]
    | some r =>
      cases r with
      | valid mcs => simp [liftEntry, entryFor, hp, hrs]
      | malformed =>
        exfalso
        simp [decodeOk, hp, hrs] at h
  · simp [liftEntry, entryFor, hp]

theorem liftEntry_of_decodeErr (v : ResourceUnitStatus) (h : decodeOk v = false) :
    liftEntry v = .error (.other "unmarshal resource status") := by
  by_cases hp : v.phase = phaseDeployed
  · cases hrs : v.resourceStatus with
    | none => exfalso; simp [decodeOk, hp, hrs] at h
    | some r =>
      cases r with
      | valid mcs => exfalso; simp [decodeOk, hp, hrs] at h
      | malformed => simp [liftEntry, hp, hrs]
  · exfalso; simp [decodeOk, hp] at h

theorem buildStatuses_ok (l : List (String × ResourceUnitStatus))
    (h : ∀ kv ∈ l, decodeOk kv.2 = true) :
    buildStatuses l = .ok (l.map fun kv => (kv.1, entryFor kv.2)) := by
  induction l with
  | nil => rfl
  | cons kv rest ih =>
    obtain ⟨k, v⟩ := kv
    have hv : decodeOk v = true := h (k, v) (List.mem_cons_self _ _)
    have hr := ih fun q hq => h q (List.mem_cons_of_mem _ hq)
    simp [buildStatuses, liftEntry_of_decodeOk v hv, hr]

theorem buildStatuses_err (l : List (String × ResourceUnitStatus))
    (h : ∃ kv ∈ l, decodeOk kv.2 = false) :
    ∃ e, buildStatuses l = .error e := by
  induction l with
  | nil => obtain ⟨kv, hm, _⟩ := h; cases hm
  | cons kv rest ih =>
    obtain ⟨k, v⟩ := kv
    by_cases hv : decodeOk v = true
    · obtain ⟨q, hq, hbad⟩ := h
      rcases List.mem_cons.mp hq with heq | hmem
      · subst heq; rw [hv] at hbad; cases hbad
      · obtain ⟨e, he⟩ := ih ⟨q, hmem, hbad⟩
        refine ⟨e, ?_⟩
        simp [buildStatuses, liftEntry_of_decodeOk v hv, he]
    · have hvf : decodeOk v = false := by
        cases hd : decodeOk v with
        | true => exact absurd hd hv
        | false => rfl
      refine ⟨.other "unmarshal resource status", ?_⟩
      simp [buildStatuses, liftEntry_of_decodeErr v hvf]

theorem finishStatus_fst (env : Env) (sub : Subscription) (newst : SubscriptionStatus) :
    (finishStatus env sub newst).1 = .ok () := by
  unfold finishStatus
  split
  · rfl
  · cases env.updateSubStatusErr <;> rfl

theorem finishStatus_same (env : Env) (sub : Subscription) (newst : SubscriptionStatus)
    (h : statusEq newst sub.status = true) :
    finishStatus env sub newst = (.ok (), sub, []) := by
  simp [finishStatus, h]

theorem finishStatus_diff (env : Env) (sub : Subscription) (newst : SubscriptionStatus)
    (h : statusEq newst sub.status = false) :
    (finishStatus env sub newst).2.1 =
       { sub with status := { newst with lastUpdateTime := env.now } }
    ∧ (finishStatus env sub newst).2.2 =
       [KAction.updateSubStatus { sub with status := { newst with lastUpdateTime := env.now } }] := by
  unfold finishStatus
  rw [h]
  simp only [Bool.false_eq_true, if_false]
  cases env.updateSubStatusErr <;> exact ⟨rfl, rfl⟩

/-- The status recomputed by the aggregator before the compare-and-write
step (phase forced to Propagated, message/reason cleared, timestamp kept
from the stored status, per-cluster breakdown dropped on a Failed
Deployable and rebuilt from the propagated reports otherwise). -/
def computedStatus (sub : Subscription) (found : Deployable) : SubscriptionStatus :=
  if found.status.phase = phaseFailed then
    { phase := phasePropagated, message := "", reason := "",
      lastUpdateTime := sub.status.lastUpdateTime, statuses := none }
  else
    { phase := phasePropagated, message := "", reason := "",
      lastUpdateTime := sub.status.lastUpdateTime,
      statuses := some (found.status.propagatedStatus.map fun kv => (kv.1, entryFor kv.2)) }

theorem updateSubscriptionStatus_eq_finish (env : Env) (sub : Subscription)
    (found : Deployable)
    (hok : ∀ kv ∈ found.status.propagatedStatus, decodeOk kv.2 = true) :
    updateSubscriptionStatus env sub found =
      finishStatus env sub (computedStatus sub found) := by
  unfold updateSubscriptionStatus computedStatus
  by_cases hf : found.status.phase = phaseFailed
  · simp [hf]
  · simp [hf, buildStatuses_ok found.status.propagatedStatus hok]

theorem lookupStr_map_of_mem {α β : Type} (f : α → β) :
    ∀ (l : List (String × α)) (k : String) (v : α),
    (l.map Prod.fst).Nodup → (k, v) ∈ l →
    lookupStr (l.map fun kv => (kv.1, f kv.2)) k = some (f v) := by
  intro l
  induction l with
  | nil => intro k v _ hm; cases hm
  | cons p rest ih =>
    intro k v hnd hm
    obtain ⟨k1, v1⟩ := p
    rcases List.mem_cons.mp hm with heq | hmem
    · cases heq
      simp [lookupStr]
    · have hk : k ≠ k1 := by
        intro hkk
        subst hkk
        have : k ∈ rest.map Prod.fst := List.mem_map.mpr ⟨(k, v), hmem, rfl⟩
        exact (List.nodup_cons.mp hnd).1 this
      have hrec : lookupStr (rest.map fun kv => (kv.1, f kv.2)) k = some (f v) :=
        ih k v (List.nodup_cons.mp hnd).2 hmem
      have hne : ¬ k1 = k := fun h => hk h.symm
      simpa [lookupStr, hne] using hrec

/-- C4: for every subscription and found Deployable handed to the status
aggregator (all Deployed payloads decodable, cluster keys unique): the
aggregation succeeds; the recomputed status has phase Propagated; a Failed
Deployable yields no per-cluster statuses; otherwise every cluster key of
the propagated status is mapped — a Deployed cluster to the `"/"`-keyed
per-package entry of its decoded payload and any other phase to an empty
entry (`entryFor`); and a status write with a fresh timestamp is issued
exactly when the recomputed status structurally differs from the stored
one. -/
theorem c4_status_aggregation (env : Env) (sub : Subscription) (found : Deployable)
    (hnd : (found.status.propagatedStatus.map Prod.fst).Nodup)
    (hok : ∀ kv ∈ found.status.propagatedStatus, decodeOk kv.2 = true) :
    (updateSubscriptionStatus env sub found).1 = .ok ()
    ∧ (computedStatus sub found).phase = phasePropagated
    ∧ (found.status.phase = phaseFailed → (computedStatus sub found).statuses = none)
    ∧ (found.status.phase ≠ phaseFailed →
        ∃ m, (computedStatus sub found).statuses = some m
          ∧ ∀ k v, (k, v) ∈ found.status.propagatedStatus →
              lookupStr m k = some (entryFor v))
    ∧ (statusEq (computedStatus sub found) sub.status = true →
        updateSubscriptionStatus env sub found = (.ok (), sub, []))
    ∧ (statusEq (computedStatus sub found) sub.status = false →
        (updateSubscriptionStatus env sub found).2.1 =
          { sub with status := { computedStatus sub found with lastUpdateTime := env.now } }
        ∧ (updateSubscriptionStatus env sub found).2.2 =
          [KAction.updateSubStatus
            { sub with status := { computedStatus sub found with lastUpdateTime := env.now } }]) := by
  rw [updateSubscriptionStatus_eq_finish env sub found hok]
  refine ⟨finishStatus_fst env sub _, ?_, ?_, ?_, ?_, ?_⟩
  · unfold computedStatus; split <;> rfl
  · intro h; simp [computedStatus, h]
  · intro h
    refine ⟨found.status.propagatedStatus.map fun kv => (kv.1, entryFor kv.2), ?_, ?_⟩
    · simp [computedStatus, h]
    · intro k v hm
      exact lookupStr_map_of_mem entryFor found.status.propagatedStatus k v hnd hm
  · intro h; exact finishStatus_same env sub _ h
  · intro h; exact finishStatus_diff env sub _ h

def c4Unit : SubscriptionUnitStatus :=
  { phase := "Subscribed", message := "", reason := "", lastUpdateTime := 0,
    resourceStatus := none }

def c4Nested : SubscriptionStatus :=
  { phase := "", message := "", reason := "", lastUpdateTime := 0,
    statuses := some [("/", some { packages := some [("pkg", some c4Unit)] })] }

def c4Found : Deployable :=
  { emptyDeployable with status :=
      { phase := "Propagated",
        propagatedStatus :=
          [("clusterA", { phase := phaseDeployed,
                          resourceStatus := some (.valid c4Nested) })] } }

theorem c4_status_aggregation_witness :
    (updateSubscriptionStatus baseEnv c6Sub c4Found).1 = .ok ()
    ∧ (computedStatus c6Sub c4Found).phase = phasePropagated
    ∧ (c4Found.status.phase = phaseFailed → (computedStatus c6Sub c4Found).statuses = none)
    ∧ (c4Found.status.phase ≠ phaseFailed →
        ∃ m, (computedStatus c6Sub c4Found).statuses = some m
          ∧ ∀ k v, (k, v) ∈ c4Found.status.propagatedStatus →
              lookupStr m k = some (entryFor v))
    ∧ (statusEq (computedStatus c6Sub c4Found) c6Sub.status = true →
        updateSubscriptionStatus baseEnv c6Sub c4Found = (.ok (), c6Sub, []))
    ∧ (statusEq (computedStatus c6Sub c4Found) c6Sub.status = false →
        (updateSubscriptionStatus baseEnv c6Sub c4Found).2.1 =
          { c6Sub with status := { computedStatus c6Sub c4Found with lastUpdateTime := baseEnv.now } }
        ∧ (updateSubscriptionStatus baseEnv c6Sub c4Found).2.2 =
          [KAction.updateSubStatus
            { c6Sub with status := { computedStatus c6Sub c4Found with lastUpdateTime := baseEnv.now } }]) :=
  c4_status_aggregation baseEnv c6Sub c4Found (by decide) (by decide)

/-- C7: the status aggregator returns an error and performs no status
write whenever decoding the resource-status payload of a Deployed cluster
fails; when all payloads decode, it returns success — for every
environment, including one whose status write fails, so a failing final
status write is swallowed rather than propagated. -/
theorem c7_decode_and_write_errors (env : Env) (sub : Subscription) (found : Deployable)
    (hph : found.status.phase ≠ phaseFailed) :
    ((∃ kv ∈ found.status.propagatedStatus, decodeOk kv.2 = false) →
        (∃ e, (updateSubscriptionStatus env sub found).1 = .error e)
        ∧ (updateSubscriptionStatus env sub found).2.2 = [])
    ∧ ((∀ kv ∈ found.status.propagatedStatus, decodeOk kv.2 = true) →
        (updateSubscriptionStatus env sub found).1 = .ok ()) := by
  constructor
  · intro hbad
    obtain ⟨e, he⟩ := buildStatuses_err _ hbad
    constructor
    · exact ⟨e, by simp [updateSubscriptionStatus, hph, he]⟩
    · simp [updateSubscriptionStatus, hph, he]
  · intro hok
    rw [updateSubscriptionStatus_eq_finish env sub found hok]
    exact finishStatus_fst env sub _

def c7Env : Env := { baseEnv with updateSubStatusErr := some (.other "boom") }

def c7Found : Deployable :=
  { emptyDeployable with status :=
      { phase := "",
        propagatedStatus :=
          [("clusterA", { phase := phaseDeployed,
                          resourceStatus := some .malformed })] } }

theorem c7_decode_and_write_errors_witness :
    ((∃ kv ∈ c7Found.status.propagatedStatus, decodeOk kv.2 = false) →
        (∃ e, (updateSubscriptionStatus c7Env c6Sub c7Found).1 = .error e)
        ∧ (updateSubscriptionStatus c7Env c6Sub c7Found).2.2 = [])
    ∧ ((∀ kv ∈ c7Found.status.propagatedStatus, decodeOk kv.2 = true) →
        (updateSubscriptionStatus c7Env c6Sub c7Found).1 = .ok ()) :=
  c7_decode_and_write_errors c7Env c6Sub c7Found (by decide)

/-! ## C8: selector-parse failure aborts, version failures are local -/

/-- C8: a malformed packageFilter label selector aborts the whole match
pass (getSubscriptionDeployables yields the nil map, so no artifact is
matched and no per-artifact evaluation happens); with a well-formed (or
absent) selector the pass completes whatever the version expression says,
and a malformed version-range expression merely makes the per-artifact
filter reject the artifact it is evaluated on. -/
theorem c8_filter_errors (env : Env) (sub : Subscription) (pf : PackageFilter)
    (hpf : sub.spec.packageFilter = some pf) :
    (pf.labelSelector = some .malformed → getSubscriptionDeployables env sub = none)
    ∧ ((pf.labelSelector = none ∨ ∃ mm, pf.labelSelector = some (.valid mm)) →
        ∀ items, env.listDpls (getChannelNamespaceType env sub).1 = .ok items →
        getSubscriptionDeployables env sub ≠ none)
    ∧ (parseRange pf.version = none → pf.version ≠ "" →
        ∀ dpl, checkDeployableBySubPackageFilter sub dpl = false) := by
  refine ⟨?_, ?_, ?_⟩
  · intro h
    simp [getSubscriptionDeployables, hpf, h]
  · rintro (hsel | ⟨mm, hsel⟩) items hls <;>
      simp [getSubscriptionDeployables, hpf, hsel, hls]
  · intro hrange hvne dpl
    simp [checkDeployableBySubPackageFilter, hpf, semverCheck, hrange, hvne]

def c8Pf : PackageFilter :=
  { annotations := none, labelSelector := some .malformed, version := "notaversion" }

def c8Sub : Subscription :=
  { apiVersion := "", kind := "", nspace := "ns", name := "s",
    uid := "u1", resourceVersion := "", generation := 1,
    creationTimestamp := 0, selfLink := "", annotations := none,
    spec := { channel := "chns/ch", package := "", packageFilter := some c8Pf,
              packageOverrides := [], overrides := [],
              placement := some (.localPl false) },
    status := emptySubStatus }

theorem c8_filter_errors_witness :
    (c8Pf.labelSelector = some .malformed → getSubscriptionDeployables baseEnv c8Sub = none)
    ∧ ((c8Pf.labelSelector = none ∨ ∃ mm, c8Pf.labelSelector = some (.valid mm)) →
        ∀ items, baseEnv.listDpls (getChannelNamespaceType baseEnv c8Sub).1 = .ok items →
        getSubscriptionDeployables baseEnv c8Sub ≠ none)
    ∧ (parseRange c8Pf.version = none → c8Pf.version ≠ "" →
        ∀ dpl, checkDeployableBySubPackageFilter c8Sub dpl = false) :=
  c8_filter_errors baseEnv c8Sub c8Pf rfl

/-! ## C9: template annotations as a fallback in the package filter -/

theorem lookupStr_eq_none_iff {α : Type} :
    ∀ (m : List (String × α)) (k : String),
    lookupStr m k = none ↔ k ∉ m.map Prod.fst := by
  intro m k
  induction m with
  | nil => simp [lookupStr]
  | cons p rest ih =>
    obtain ⟨k1, v1⟩ := p
    by_cases h : k1 = k
    · subst h; simp [lookupStr]
    · have hstep : lookupStr ((k1, v1) :: rest) k = lookupStr rest k := by
        simp [lookupStr, h]
      rw [hstep, ih]
      simp only [List.map_cons, List.mem_cons]
      constructor
      · intro hnk hor
        rcases hor with h1 | h2
        · exact h h1.symm
        · exact hnk h2
      · intro hall h2
        exact hall (Or.inr h2)

theorem lookupStr_mem {α : Type} :
    ∀ (m : List (String × α)) (k : String) (w : α),
    lookupStr m k = some w → (k, w) ∈ m := by
  intro m
  induction m with
  | nil => intro k w h; cases h
  | cons p rest ih =>
    intro k w h
    obtain ⟨k1, v1⟩ := p
    by_cases hk : k1 = k
    · subst hk
      simp [lookupStr] at h
      subst h
      exact List.mem_cons_self _ _
    · simp [lookupStr, hk] at h
      exact List.mem_cons_of_mem _ (ih k w h)

theorem canonFields_keys_nodup : ∀ fs : List (String × JValue),
    ((canonFields fs).map Prod.fst).Nodup := by
  intro fs
  induction fs with
  | nil => simp [canonFields]
  | cons p rest ih =>
    obtain ⟨k, v⟩ := p
    simp only [canonFields]
    cases hl : (lookupStr (canonFields rest) k).isSome with
    | true => simpa [hl] using ih
    | false =>
      have hnone : lookupStr (canonFields rest) k = none := by
        cases h : lookupStr (canonFields rest) k with
        | none => rfl
        | some w => rw [h] at hl; cases hl
      have hnm : k ∉ (canonFields rest).map Prod.fst :=
        (lookupStr_eq_none_iff _ _).mp hnone
      simpa [hl] using List.Nodup.cons hnm ih

theorem insFieldSorted_perm (p : String × JValue) :
    ∀ l : List (String × JValue), List.Perm (insFieldSorted p l) (p :: l) := by
  intro l
  induction l with
  | nil => simp [insFieldSorted]
  | cons q rest ih =>
    simp only [insFieldSorted]
    split
    · exact List.Perm.refl _
    · exact List.Perm.trans (List.Perm.cons q ih) (List.Perm.swap p q rest)

theorem sortFields_perm : ∀ fs : List (String × JValue),
    List.Perm (sortFields fs) fs := by
  intro fs
  induction fs with
  | nil => simp [sortFields]
  | cons p rest ih =>
    exact List.Perm.trans (insFieldSorted_perm p (sortFields rest)) (List.Perm.cons p ih)

theorem sortFields_keys_nodup (fs : List (String × JValue))
    (h : (fs.map Prod.fst).Nodup) : ((sortFields fs).map Prod.fst).Nodup :=
  (((sortFields_perm fs).map Prod.fst).nodup_iff).mpr h

theorem canonFields_mem_shape : ∀ (fs : List (String × JValue)) (k : String) (w : JValue),
    (k, w) ∈ canonFields fs → ∃ u, w = canon u := by
  intro fs
  induction fs with
  | nil => intro k w h; cases h
  | cons p rest ih =>
    intro k w h
    obtain ⟨k1, v1⟩ := p
    simp only [canonFields] at h
    by_cases hl : (lookupStr (canonFields rest) k1).isSome
    · rw [if_pos hl] at h
      exact ih k w h
    · rw [if_neg hl] at h
      rcases List.mem_cons.mp h with heq | hmem
      · cases heq
        exact ⟨v1, rfl⟩
      · exact ih k w hmem

theorem sortFields_mem_shape (fs : List (String × JValue)) (k : String) (w : JValue)
    (h : (k, w) ∈ sortFields (canonFields fs)) : ∃ u, w = canon u :=
  canonFields_mem_shape fs k w ((sortFields_perm (canonFields fs)).mem_iff.mp h)

theorem canon_jobj_inv (u : JValue) (mfs : List (String × JValue))
    (h : canon u = .jobj mfs) : ∃ gs, mfs = sortFields (canonFields gs) := by
  cases u <;> simp [canon] at h
  exact ⟨_, h.symm⟩

theorem stringFields_keys : ∀ (fs : List (String × JValue)) (m : List (String × String)),
    stringFields fs = some m → m.map Prod.fst = fs.map Prod.fst := by
  intro fs
  induction fs with
  | nil => intro m h; cases h; rfl
  | cons p rest ih =>
    intro m h
    obtain ⟨k, v⟩ := p
    cases v <;> simp [stringFields] at h
    obtain ⟨r, hr, hm⟩ := h
    subst hm
    simp [ih r hr]

/-- Keys of the annotation map read out of a decoded (canonical) document
are duplicate-free, as they are for a Go map. -/
theorem jGetAnnotationMap_canon_nodup (v : JValue) :
    ((jGetAnnotationMap (canon v)).map Prod.fst).Nodup := by
  cases v with
  | jobj fs =>
    simp only [canon, jGetAnnotationMap]
    cases hmd : lookupStr (sortFields (canonFields fs)) "metadata" with
    | none => simp
    | some w =>
      obtain ⟨u, hu⟩ := sortFields_mem_shape fs "metadata" w (lookupStr_mem _ _ _ hmd)
      cases w with
      | jobj mfs =>
        obtain ⟨gs, hgs⟩ := canon_jobj_inv u mfs hu.symm
        cases han : lookupStr mfs "annotations" with
        | none => simp [han]
        | some w2 =>
          obtain ⟨u2, hu2⟩ := sortFields_mem_shape gs "annotations" w2
            (lookupStr_mem _ _ _ (hgs ▸ han))
          cases w2 with
          | jobj afs =>
            obtain ⟨hs, hhs⟩ := canon_jobj_inv u2 afs hu2.symm
            cases hsf : stringFields afs with
            | none => simp [han, hsf]
            | some m =>
              have hkeys := stringFields_keys afs m hsf
              have hnd : (afs.map Prod.fst).Nodup := by
                rw [hhs]
                exact sortFields_keys_nodup _ (canonFields_keys_nodup hs)
              simp only [han, hsf, Option.getD_some]
              rw [hkeys]
              exact hnd
          | jnull => simp [han]
          | jbool b => simp [han]
          | jnum n => simp [han]
          | jstr s => simp [han]
          | jarr xs => simp [han]
      | jnull => simp
      | jbool b => simp
      | jnum n => simp
      | jstr s => simp
      | jarr xs => simp
  | jnull => simp [canon, jGetAnnotationMap]
  | jbool b => simp [canon, jGetAnnotationMap]
  | jnum n => simp [canon, jGetAnnotationMap]
  | jstr s => simp [canon, jGetAnnotationMap]
  | jarr xs => simp [canon, jGetAnnotationMap]

theorem lookupStr_insert_self {α : Type} :
    ∀ (m : List (String × α)) (k : String) (v : α),
    lookupStr (insertStr m k v) k = some v := by
  intro m
  induction m with
  | nil => intro k v; simp [insertStr, lookupStr]
  | cons p rest ih =>
    intro k v
    obtain ⟨k1, v1⟩ := p
    by_cases h : k1 = k
    · subst h; simp [insertStr, lookupStr]
    · simp [insertStr, lookupStr, h, ih]

theorem lookupStr_insert_ne {α : Type} :
    ∀ (m : List (String × α)) (k1 : String) (v : α) (k : String), k1 ≠ k →
    lookupStr (insertStr m k1 v) k = lookupStr m k := by
  intro m
  induction m with
  | nil => intro k1 v k h; simp [insertStr, lookupStr, h]
  | cons p rest ih =>
    intro k1 v k h
    obtain ⟨k2, v2⟩ := p
    by_cases h2 : k2 = k1
    · subst h2; simp [insertStr, lookupStr, h]
    · simp [insertStr, lookupStr, h2, ih _ _ _ h]

/-- Effect of the fallback-merge fold on any single key: a key whose
current value is non-empty is left alone; otherwise it receives the
template map's value for that key (still empty when the template does not
carry it). -/
theorem mergeFold_annoVal :
    ∀ (tl : List (String × String)), (tl.map Prod.fst).Nodup →
    ∀ (m : List (String × String)) (k : String),
    annoVal (tl.foldl (fun acc p => if annoVal acc p.1 = "" then insertStr acc p.1 p.2 else acc) m) k
      = if annoVal m k = "" then annoVal tl k else annoVal m k := by
  intro tl
  induction tl with
  | nil =>
    intro _ m k
    simp only [List.foldl_nil]
    by_cases h : annoVal m k = ""
    · rw [if_pos h, h]; rfl
    · rw [if_neg h]
  | cons p tl' ih =>
    intro hnd m k
    obtain ⟨k1, v1⟩ := p
    simp only [List.map_cons] at hnd
    obtain ⟨hk1nm, hnd'⟩ := List.nodup_cons.mp hnd
    rw [List.foldl_cons, ih hnd']
    simp only []
    by_cases hkk : k = k1
    · subst hkk
      have hhead : annoVal ((k, v1) :: tl') k = v1 := by simp [annoVal, lookupStr]
      by_cases hm : annoVal m k = ""
      · have hself : annoVal (insertStr m k v1) k = v1 := by
          simp [annoVal, lookupStr_insert_self]
        by_cases hv : v1 = ""
        · subst hv
          have htl' : annoVal tl' k = "" := by
            simp [annoVal, (lookupStr_eq_none_iff tl' k).mpr hk1nm]
          simp [hm, hself, hhead, htl']
        · simp [hm, hself, hhead, hv]
      · simp [hm, hhead]
    · have hne : k1 ≠ k := fun h => hkk h.symm
      have hM : annoVal (if annoVal m k1 = "" then insertStr m k1 v1 else m) k
          = annoVal m k := by
        split
        · simp [annoVal, lookupStr_insert_ne m k1 v1 k hne]
        · rfl
      have hhead : annoVal ((k1, v1) :: tl') k = annoVal tl' k := by
        simp [annoVal, lookupStr, hne]
      rw [hM, hhead]

def c9Tpl : JValue :=
  .jobj [("metadata", .jobj [("annotations", .jobj [("k", .jstr "x")])])]

def c9Dpl : Deployable :=
  { emptyDeployable with
      annotations := some [("k", "")],
      spec := { template := some (.valid c9Tpl), overrides := [], placement := none } }

def c9Sub : Subscription :=
  { apiVersion := "", kind := "", nspace := "ns", name := "s",
    uid := "u1", resourceVersion := "", generation := 1,
    creationTimestamp := 0, selfLink := "", annotations := none,
    spec := { channel := "", package := "",
              packageFilter := some { annotations := some [("k", "x")],
                                      labelSelector := none, version := "" },
              packageOverrides := [], overrides := [],
              placement := some (.localPl false) },
    status := emptySubStatus }

/-- C9 counterexample: the artifact carries annotation key `"k"` at the
artifact level (with the empty-string value) while its template payload
carries `"k" = "x"`; the merged map used for matching holds `"x"`, not the
artifact-level value, and a filter requiring `k = "x"` matches — so a
template annotation does override an existing artifact-level annotation
key when the artifact-level value is the empty string, refuting the claim
as stated. -/
theorem c9_counterexample :
    lookupStr ((c9Dpl.annotations).getD []) "k" = some ""
    ∧ lookupStr (mergedDplAnno c9Dpl) "k" = some "x"
    ∧ checkDeployableBySubPackageFilter c9Sub c9Dpl = true :=
  ⟨rfl, rfl, rfl⟩

/-- C9 amended: during annotation matching, for every annotation key whose
artifact-level value is non-empty the merged value equals the
artifact-level value; a template-payload annotation is used only when the
artifact carries the key with an empty reading (missing key or
empty-string value). -/
theorem c9_anno_merge_amended (dpl : Deployable) (t : JValue) (k : String)
    (htpl : dpl.spec.template = some (.valid t)) :
    (annoVal ((dpl.annotations).getD []) k ≠ "" →
      annoVal (mergedDplAnno dpl) k = annoVal ((dpl.annotations).getD []) k)
    ∧ (annoVal ((dpl.annotations).getD []) k = "" →
      annoVal (mergedDplAnno dpl) k = annoVal (jGetAnnotationMap (canon t)) k) := by
  have hm : mergedDplAnno dpl = (jGetAnnotationMap (canon t)).foldl
      (fun acc p => if annoVal acc p.1 = "" then insertStr acc p.1 p.2 else acc)
      ((dpl.annotations).getD []) := by
    simp [mergedDplAnno, htpl]
  rw [hm, mergeFold_annoVal _ (jGetAnnotationMap_canon_nodup t) _ k]
  constructor
  · intro h; simp [h]
  · intro h; simp [h]

theorem c9_anno_merge_amended_witness :
    (annoVal ((c9Dpl.annotations).getD []) "k" ≠ "" →
      annoVal (mergedDplAnno c9Dpl) "k" = annoVal ((c9Dpl.annotations).getD []) "k")
    ∧ (annoVal ((c9Dpl.annotations).getD []) "k" = "" →
      annoVal (mergedDplAnno c9Dpl) "k" = annoVal (jGetAnnotationMap (canon c9Tpl)) "k") :=
  c9_anno_merge_amended c9Dpl c9Tpl "k" rfl

/-! ## C3: the bookkeeping annotation as a comma-joined set -/

theorem checkKeysLoop_iff :
    ∀ (matched org : List String), matched.Nodup → org.Nodup →
    (((checkKeysLoop matched org).1 = false ∧ (checkKeysLoop matched org).2 = []) ↔
      ∀ k, k ∈ matched ↔ k ∈ org) := by
  intro matched
  induction matched with
  | nil =>
    intro org _ _
    simp only [checkKeysLoop]
    constructor
    · rintro ⟨-, h2⟩ k
      subst h2
      simp
    · intro h
      refine ⟨by simp, ?_⟩
      exact List.eq_nil_iff_forall_not_mem.mpr fun k hk => by simpa using (h k).mpr hk
  | cons k ks ih =>
    intro org hm ho
    obtain ⟨hknotin, hks⟩ := List.nodup_cons.mp hm
    simp only [checkKeysLoop]
    by_cases hk : k ∈ org
    · rw [if_pos hk, ih (org.erase k) hks (ho.erase k)]
      constructor
      · intro h j
        constructor
        · intro hj
          rcases List.mem_cons.mp hj with rfl | hjks
          · exact hk
          · exact (ho.mem_erase_iff.mp ((h j).mp hjks)).2
        · intro hj
          by_cases hjk : j = k
          · subst hjk; exact List.mem_cons_self _ _
          · exact List.mem_cons_of_mem _ ((h j).mpr (ho.mem_erase_iff.mpr ⟨hjk, hj⟩))
      · intro h j
        constructor
        · intro hj
          have hjorg := (h j).mp (List.mem_cons_of_mem _ hj)
          have hjk : j ≠ k := fun he => hknotin (he ▸ hj)
          exact ho.mem_erase_iff.mpr ⟨hjk, hjorg⟩
        · intro hj
          obtain ⟨hjk, hjorg⟩ := ho.mem_erase_iff.mp hj
          rcases List.mem_cons.mp ((h j).mpr hjorg) with rfl | hjks
          · exact absurd rfl hjk
          · exact hjks
    · rw [if_neg hk]
      constructor
      · rintro ⟨h1, -⟩
        exact absurd h1 (by simp)
      · intro h
        exact absurd ((h k).mp (List.mem_cons_self _ _)) hk

theorem mem_dedupKeys : ∀ (l : List String) (k : String), k ∈ dedupKeys l ↔ k ∈ l := by
  intro l
  induction l with
  | nil => intro k; simp [dedupKeys]
  | cons a rest ih =>
    intro k
    simp only [dedupKeys]
    by_cases h : a ∈ dedupKeys rest
    · rw [if_pos h]
      constructor
      · intro hk
        exact List.mem_cons_of_mem _ ((ih k).mp hk)
      · intro hk
        rcases List.mem_cons.mp hk with rfl | hk2
        · exact h
        · exact (ih k).mpr hk2
    · rw [if_neg h]
      simp [List.mem_cons, ih]

theorem dedupKeys_nodup : ∀ l : List String, (dedupKeys l).Nodup := by
  intro l
  induction l with
  | nil => simp [dedupKeys]
  | cons a rest ih =>
    simp only [dedupKeys]
    by_cases h : a ∈ dedupKeys rest
    · rwa [if_pos h]
    · rw [if_neg h]
      exact List.Nodup.cons h ih

theorem mem_insertStr_keys {α : Type} :
    ∀ (m : List (String × α)) (k : String) (v : α) (j : String),
    j ∈ (insertStr m k v).map Prod.fst ↔ j = k ∨ j ∈ m.map Prod.fst := by
  intro m
  induction m with
  | nil => intro k v j; simp [insertStr]
  | cons p rest ih =>
    intro k v j
    obtain ⟨k1, v1⟩ := p
    by_cases h : k1 = k
    · subst h
      simp [insertStr]
    · simp only [insertStr, if_neg h, List.map_cons, List.mem_cons, ih]
      tauto

theorem insertStr_keys_nodup {α : Type} :
    ∀ (m : List (String × α)) (k : String) (v : α),
    (m.map Prod.fst).Nodup → ((insertStr m k v).map Prod.fst).Nodup := by
  intro m
  induction m with
  | nil => intro k v _; simp [insertStr]
  | cons p rest ih =>
    intro k v h
    obtain ⟨k1, v1⟩ := p
    simp only [List.map_cons] at h
    obtain ⟨h1, h2⟩ := List.nodup_cons.mp h
    by_cases hk : k1 = k
    · subst hk
      simpa [insertStr] using List.Nodup.cons h1 h2
    · simp only [insertStr, if_neg hk, List.map_cons]
      refine List.Nodup.cons ?_ (ih k v h2)
      intro hmem
      rcases (mem_insertStr_keys rest k v k1).mp hmem with heq | hin
      · exact hk heq
      · exact h1 hin

theorem foldDpls_keys_nodup (sub : Subscription) :
    ∀ (items : List Deployable) (acc : List (String × Deployable)),
    (acc.map Prod.fst).Nodup →
    ((items.foldl (fun acc d =>
        if checkDeployableBySubPackageFilter sub d then
          insertStr acc (d.nspace ++ "/" ++ d.name) d
        else acc) acc).map Prod.fst).Nodup := by
  intro items
  induction items with
  | nil => intro acc h; exact h
  | cons d rest ih =>
    intro acc h
    rw [List.foldl_cons]
    apply ih
    split
    · exact insertStr_keys_nodup acc _ d h
    · exact h

theorem getSubscriptionDeployables_keys_nodup (env : Env) (sub : Subscription)
    (m : List (String × Deployable))
    (h : getSubscriptionDeployables env sub = some m) : (m.map Prod.fst).Nodup := by
  have hfold : ∀ items : List Deployable,
      ((items.foldl (fun acc d =>
          if checkDeployableBySubPackageFilter sub d then
            insertStr acc (d.nspace ++ "/" ++ d.name) d
          else acc) ([] : List (String × Deployable))).map Prod.fst).Nodup :=
    fun items => foldDpls_keys_nodup sub items [] (by simp)
  rcases hpf : sub.spec.packageFilter with _ | pf
  · cases hls : env.listDpls (getChannelNamespaceType env sub).1 with
    | error e => simp [getSubscriptionDeployables, hpf, hls] at h
    | ok items =>
      simp only [getSubscriptionDeployables, hpf, hls, Option.some.injEq] at h
      exact h ▸ hfold items
  · cases hsel : pf.labelSelector with
    | none =>
      cases hls : env.listDpls (getChannelNamespaceType env sub).1 with
      | error e => simp [getSubscriptionDeployables, hpf, hsel, hls] at h
      | ok items =>
        simp only [getSubscriptionDeployables, hpf, hsel, hls, Option.some.injEq] at h
        exact h ▸ hfold items
    | some ls =>
      cases ls with
      | malformed => simp [getSubscriptionDeployables, hpf, hsel] at h
      | valid mm =>
        cases hls : env.listDpls (getChannelNamespaceType env sub).1 with
        | error e => simp [getSubscriptionDeployables, hpf, hsel, hls] at h
        | ok items =>
          simp only [getSubscriptionDeployables, hpf, hsel, hls, Option.some.injEq] at h
          exact h ▸ hfold (items.filter fun d => selectorKeeps mm d)

/-- Byte form of the comma-join of a non-empty key list. -/
def joinTail : List String → List Char
  | [] => []
  | k :: rest => ',' :: (k.data ++ joinTail rest)

theorem goJoin_data : ∀ (rest : List String) (acc : String), acc ≠ "" →
    (List.foldl (fun acc k => if acc = "" then k else acc ++ "," ++ k) acc rest).data
      = acc.data ++ joinTail rest := by
  intro rest
  induction rest with
  | nil => intro acc _; simp [joinTail]
  | cons k rest ih =>
    intro acc hacc
    rw [List.foldl_cons, if_neg hacc]
    have hne : acc ++ "," ++ k ≠ "" := by
      intro he
      have : (acc ++ "," ++ k).data = [] := by rw [he]
      simp [String.data_append] at this
    rw [ih _ hne]
    simp [String.data_append, joinTail]

theorem splitSepAux_no_sep : ∀ (xs acc : List Char), ',' ∉ xs →
    splitSepAux ',' xs acc = [String.mk (acc.reverse ++ xs)] := by
  intro xs
  induction xs with
  | nil => intro acc _; simp [splitSepAux]
  | cons c cs ih =>
    intro acc hnin
    have hc : c ≠ ',' := fun he => hnin (he ▸ List.mem_cons_self c cs)
    have hcs : ',' ∉ cs := fun hm => hnin (List.mem_cons_of_mem _ hm)
    rw [splitSepAux, if_neg hc, ih (c :: acc) hcs]
    simp

theorem splitSepAux_sep : ∀ (xs acc rest : List Char), ',' ∉ xs →
    splitSepAux ',' (xs ++ ',' :: rest) acc
      = String.mk (acc.reverse ++ xs) :: splitSepAux ',' rest [] := by
  intro xs
  induction xs with
  | nil => intro acc rest _; simp [splitSepAux]
  | cons c cs ih =>
    intro acc rest hnin
    have hc : c ≠ ',' := fun he => hnin (he ▸ List.mem_cons_self c cs)
    have hcs : ',' ∉ cs := fun hm => hnin (List.mem_cons_of_mem _ hm)
    rw [List.cons_append, splitSepAux, if_neg hc, ih (c :: acc) rest hcs]
    simp

theorem splitSepAux_joinTail :
    ∀ (l : List String) (k : String), ',' ∉ k.data → (∀ j ∈ l, ',' ∉ j.data) →
    splitSepAux ',' (k.data ++ joinTail l) [] = k :: l := by
  intro l
  induction l with
  | nil =>
    intro k hk _
    simp only [joinTail, List.append_nil]
    rw [splitSepAux_no_sep k.data [] hk]
    simp
  | cons j rest ih =>
    intro k hk hl
    simp only [joinTail]
    rw [show k.data ++ ',' :: (j.data ++ joinTail rest)
          = k.data ++ ',' :: (j.data ++ joinTail rest) from rfl]
    rw [splitSepAux_sep k.data [] (j.data ++ joinTail rest) hk]
    have hj : ',' ∉ j.data := (hl j (List.mem_cons_self _ _))
    have hrest : ∀ q ∈ rest, ',' ∉ q.data := fun q hq => hl q (List.mem_cons_of_mem _ hq)
    rw [ih j hj hrest]
    simp

theorem decode_goJoin (l : List String)
    (hok : ∀ k ∈ l, k ≠ "" ∧ ',' ∉ k.data) :
    decodeDplAnno (goJoinComma l) = l := by
  cases l with
  | nil => rfl
  | cons k rest =>
    obtain ⟨hk, hkc⟩ := hok k (List.mem_cons_self _ _)
    have hstep : goJoinComma (k :: rest)
        = List.foldl (fun acc k => if acc = "" then k else acc ++ "," ++ k) k rest := by
      simp [goJoinComma, hk]
    have hdata : (goJoinComma (k :: rest)).data = k.data ++ joinTail rest := by
      rw [hstep, goJoin_data rest k hk]
    have hne : goJoinComma (k :: rest) ≠ "" := by
      intro he
      rw [he] at hdata
      have hkd : k.data ≠ [] := fun hh => hk (String.ext hh)
      cases hkd (List.append_eq_nil.mp hdata.symm).1
    unfold decodeDplAnno
    rw [if_neg hne]
    unfold splitSep
    rw [hdata]
    exact splitSepAux_joinTail rest k hkc
      (fun j hj => (hok j (List.mem_cons_of_mem _ hj)).2)

/-- The set of artifact keys matched by the current pass (keys of the map
returned by getSubscriptionDeployables; the Go nil map contributes no
keys). -/
def matchedKeys (env : Env) (sub : Subscription) : List String :=
  ((getSubscriptionDeployables env sub).getD []).map Prod.fst

/-- The key set decoded from the stored bookkeeping annotation. -/
def storedKeys (sub : Subscription) : List String :=
  match sub.annotations with
  | none => []
  | some m => decodeDplAnno (annoVal m annoDeployables)

/-- The subscription as rewritten by the bookkeeping-annotation refresh. -/
def subUpdated (env : Env) (sub : Subscription) : Subscription :=
  { sub with annotations := some (insertStr ((sub.annotations).getD [])
      annoDeployables (goJoinComma (matchedKeys env sub))) }

theorem updateDeployablesAnno_eq (env : Env) (sub : Subscription) :
    updateDeployablesAnno env sub =
      (if (checkKeysLoop (matchedKeys env sub) (dedupKeys (storedKeys sub))).1
          || !(checkKeysLoop (matchedKeys env sub) (dedupKeys (storedKeys sub))).2.isEmpty then
         (true, subUpdated env sub, [KAction.updateSub (subUpdated env sub)])
       else (false, sub, [])) := by
  unfold updateDeployablesAnno subUpdated matchedKeys storedKeys
  split
  all_goals split
  all_goals rfl

theorem orNotEmpty_false_iff (a : Bool) (l : List String) :
    ((a || !l.isEmpty) = false) ↔ (a = false ∧ l = []) := by
  cases a <;> cases l <;> simp

/-- C3: the bookkeeping-annotation refresh treats the annotation as an
unordered comma-joined set: it reports a change exactly when the set of
namespace/name keys of currently matched artifacts differs from the set
decoded from the stored annotation (mere reordering is never a change);
with no change nothing is written; with a change it issues exactly one
subscription metadata update, after which the annotation decodes to
exactly the matched keys. -/
theorem c3_bookkeeping_set (env : Env) (sub : Subscription)
    (hkeys : ∀ p ∈ (getSubscriptionDeployables env sub).getD [],
      p.1 ≠ "" ∧ ',' ∉ p.1.data) :
    ((updateDeployablesAnno env sub).1 = false ↔
      ∀ k, k ∈ matchedKeys env sub ↔ k ∈ storedKeys sub)
    ∧ ((updateDeployablesAnno env sub).1 = false →
        updateDeployablesAnno env sub = (false, sub, []))
    ∧ ((updateDeployablesAnno env sub).1 = true →
        (updateDeployablesAnno env sub).2.2
          = [KAction.updateSub (updateDeployablesAnno env sub).2.1]
        ∧ ∀ k, (k ∈ decodeDplAnno (annoVal
              (((updateDeployablesAnno env sub).2.1.annotations).getD [])
              annoDeployables)
            ↔ k ∈ matchedKeys env sub)) := by
  have hmnd : (matchedKeys env sub).Nodup := by
    unfold matchedKeys
    cases hg : getSubscriptionDeployables env sub with
    | none => simp
    | some m => simpa using getSubscriptionDeployables_keys_nodup env sub m hg
  have hmok : ∀ k ∈ matchedKeys env sub, k ≠ "" ∧ ',' ∉ k.data := by
    intro k hk
    obtain ⟨p, hp, rfl⟩ := List.mem_map.mp hk
    exact hkeys p hp
  have hsetiff : ((checkKeysLoop (matchedKeys env sub) (dedupKeys (storedKeys sub))).1 = false
      ∧ (checkKeysLoop (matchedKeys env sub) (dedupKeys (storedKeys sub))).2 = [])
      ↔ ∀ k, k ∈ matchedKeys env sub ↔ k ∈ storedKeys sub :=
    (checkKeysLoop_iff (matchedKeys env sub) (dedupKeys (storedKeys sub)) hmnd
      (dedupKeys_nodup _)).trans
      (forall_congr' fun k => iff_congr Iff.rfl (mem_dedupKeys _ k))
  rw [updateDeployablesAnno_eq env sub]
  cases hc : ((checkKeysLoop (matchedKeys env sub) (dedupKeys (storedKeys sub))).1
      || !(checkKeysLoop (matchedKeys env sub) (dedupKeys (storedKeys sub))).2.isEmpty) with
  | false =>
    have hs : ∀ k, k ∈ matchedKeys env sub ↔ k ∈ storedKeys sub :=
      hsetiff.mp ((orNotEmpty_false_iff _ _).mp hc)
    simp only [hc, Bool.false_eq_true, if_false]
    refine ⟨iff_of_true (by simp) hs, fun _ => by trivial, fun habs => by simp at habs⟩
  | true =>
    have hnset : ¬ ∀ k, k ∈ matchedKeys env sub ↔ k ∈ storedKeys sub := by
      intro hs
      have hcf := (orNotEmpty_false_iff _ _).mpr (hsetiff.mpr hs)
      rw [hcf] at hc
      exact Bool.false_ne_true hc
    simp only [hc, if_true]
    refine ⟨iff_of_false (by simp) hnset, fun habs => by simp at habs, fun _ => ⟨by trivial, ?_⟩⟩
    intro k
    have hval : annoVal (((subUpdated env sub).annotations).getD []) annoDeployables
        = goJoinComma (matchedKeys env sub) := by
      simp [subUpdated, annoVal, lookupStr_insert_self]
    show k ∈ decodeDplAnno (annoVal (((subUpdated env sub).annotations).getD []) annoDeployables)
        ↔ k ∈ matchedKeys env sub
    rw [hval, decode_goJoin (matchedKeys env sub) hmok]

def c3Dpl : Deployable := { emptyDeployable with name := "d1", nspace := "chns" }

def c3Env : Env := { baseEnv with listDpls := fun _ => .ok [c3Dpl] }

def c3Sub : Subscription :=
  { apiVersion := "", kind := "", nspace := "ns", name := "s",
    uid := "u1", resourceVersion := "", generation := 1,
    creationTimestamp := 0, selfLink := "",
    annotations := some [(annoDeployables, "old/stale")],
    spec := { channel := "chns/ch", package := "", packageFilter := none,
              packageOverrides := [], overrides := [],
              placement := some (.localPl false) },
    status := emptySubStatus }

theorem c3_bookkeeping_set_witness :
    ((updateDeployablesAnno c3Env c3Sub).1 = false ↔
      ∀ k, k ∈ matchedKeys c3Env c3Sub ↔ k ∈ storedKeys c3Sub)
    ∧ ((updateDeployablesAnno c3Env c3Sub).1 = false →
        updateDeployablesAnno c3Env c3Sub = (false, c3Sub, []))
    ∧ ((updateDeployablesAnno c3Env c3Sub).1 = true →
        (updateDeployablesAnno c3Env c3Sub).2.2
          = [KAction.updateSub (updateDeployablesAnno c3Env c3Sub).2.1]
        ∧ ∀ k, (k ∈ decodeDplAnno (annoVal
              (((updateDeployablesAnno c3Env c3Sub).2.1.annotations).getD [])
              annoDeployables)
            ↔ k ∈ matchedKeys c3Env c3Sub)) :=
  c3_bookkeeping_set c3Env c3Sub (by decide)

/-! ## C5: teardown (placement withdrawn) -/

def c5Sub : Subscription :=
  { apiVersion := "", kind := "", nspace := "ns", name := "s",
    uid := "u1", resourceVersion := "", generation := 1,
    creationTimestamp := 0, selfLink := "", annotations := none,
    spec := { channel := "", package := "", packageFilter := none,
              packageOverrides := [], overrides := [], placement := none },
    status := { phase := "", message := "", reason := "",
                lastUpdateTime := 7, statuses := none } }

/-- C5 code evaluation at the failing input: the subscription's status is
already in the fully cleared form (no per-cluster statuses, empty phase,
message and reason) and no Deployable exists, yet the teardown still
issues a status update carrying a fresh timestamp — because
`reflect.DeepEqual(savest, sub.Status)` compares a pointer with a value
and is therefore always false (hub.go:299/313). -/
theorem c5_teardown_code_eval :
    c5Sub.status.statuses = none ∧ c5Sub.status.phase = ""
    ∧ c5Sub.status.message = "" ∧ c5Sub.status.reason = ""
    ∧ stopDeploySubscription baseEnv c5Sub
      = (.ok (),
         { c5Sub with status := { c5Sub.status with lastUpdateTime := baseEnv.now } },
         [KAction.updateSubStatus
           { c5Sub with status := { c5Sub.status with lastUpdateTime := baseEnv.now } }]) :=
  ⟨rfl, rfl, rfl, rfl, rfl⟩

/-! ## C10: early return after a bookkeeping change -/

/-- C10: when the bookkeeping-annotation refresh reports a change,
doMCMHubReconcile returns success immediately: the cycle's whole trace is
that one subscription metadata update — no Deployable is created, updated
or deleted and no status is written — and this holds for every
environment, so a failing annotation-update API call is swallowed and the
cycle still reports success. -/
theorem c10_early_return (applyOv : ApplyOv) (env : Env) (sub sub1 : Subscription)
    (a1 : List KAction)
    (h : updateDeployablesAnno env sub = (true, sub1, a1)) :
    doMCMHubReconcile applyOv env sub = (.ok (), sub1, a1)
    ∧ a1 = [KAction.updateSub sub1]
    ∧ dplActions a1 = [] := by
  have hfirst : doMCMHubReconcile applyOv env sub = (.ok (), sub1, a1) := by
    unfold doMCMHubReconcile
    rw [h]
  have ha : a1 = [KAction.updateSub sub1] := by
    have he := updateDeployablesAnno_eq env sub
    rw [h] at he
    split at he
    · injection he with hb hrest
      injection hrest with hs ha
      subst hs
      subst ha
      rfl
    · injection he with hb hrest
      exact Bool.noConfusion hb
  refine ⟨hfirst, ha, ?_⟩
  rw [ha]
  rfl

def c10Env : Env := { c3Env with updateSubErr := some (.other "api down") }

theorem c10_early_return_witness :
    doMCMHubReconcile idApply c10Env c3Sub
        = (.ok (), subUpdated c10Env c3Sub, [KAction.updateSub (subUpdated c10Env c3Sub)])
    ∧ [KAction.updateSub (subUpdated c10Env c3Sub)]
        = [KAction.updateSub (subUpdated c10Env c3Sub)]
    ∧ dplActions [KAction.updateSub (subUpdated c10Env c3Sub)] = [] :=
  c10_early_return idApply c10Env c3Sub (subUpdated c10Env c3Sub)
    [KAction.updateSub (subUpdated c10Env c3Sub)] rfl

/-! ## C1: drift reconciliation of the primary Deployable -/

theorem updateDeployablesAnno_false (env : Env) (sub : Subscription)
    (h : (updateDeployablesAnno env sub).1 = false) :
    updateDeployablesAnno env sub = (false, sub, []) := by
  have he := updateDeployablesAnno_eq env sub
  split at he
  · rw [he] at h
    simp at h
  · exact he

theorem dplActions_finishStatus (env : Env) (sub : Subscription)
    (st : SubscriptionStatus) :
    dplActions (finishStatus env sub st).2.2 = [] := by
  unfold finishStatus
  split
  · rfl
  · cases env.updateSubStatusErr <;> rfl

theorem dplActions_updateSubscriptionStatus (env : Env) (sub : Subscription)
    (found : Deployable) :
    dplActions (updateSubscriptionStatus env sub found).2.2 = [] := by
  unfold updateSubscriptionStatus
  split
  · exact dplActions_finishStatus env sub _
  · split
    · rfl
    · exact dplActions_finishStatus env sub _

/-- C1 amended: when the primary Deployable already exists and the cycle
reaches the drift step, the reconciler deep-compares only the decoded
template payloads — the overrides lists are not compared on this path —
and issues exactly one Deployable update (copying the desired spec and
stamping the generated/non-local annotations) precisely when the decoded
templates differ; when they are equal no Deployable-mutating call is made,
and in particular a second cycle against the byte-identical stored spec
performs zero Deployable-mutating calls, leaving template and overrides
unchanged. -/
theorem c1_drift_amended (applyOv : ApplyOv) (env : Env) (sub : Subscription)
    (pl : Placement) (dpl0 found : Deployable) (org fnd : JValue)
    (h0 : (updateDeployablesAnno env sub).1 = false)
    (hpl : sub.spec.placement = some pl)
    (hprep : prepareDeployableForSubscription applyOv env sub none = .ok dpl0)
    (htgt : createTargetDplForRollingUpdate applyOv env sub = (.ok none, []))
    (hget : env.getDpl dpl0.nspace dpl0.name = .ok found)
    (horg : decodeTemplate dpl0.spec.template = some org)
    (hfnd : decodeTemplate found.spec.template = some fnd) :
    (JValue.beq org fnd = false →
        (doMCMHubReconcile applyOv env sub).2.2
          = [KAction.updateDpl (stampGenerated { found with spec := dpl0.spec })])
    ∧ (JValue.beq org fnd = true →
        dplActions (doMCMHubReconcile applyOv env sub).2.2 = [])
    ∧ (found.spec.template = dpl0.spec.template →
        dplActions (doMCMHubReconcile applyOv env sub).2.2 = []) := by
  have hupd := updateDeployablesAnno_false env sub h0
  have hmain : doMCMHubReconcile applyOv env sub =
      (if JValue.beq org fnd then
        ((updateSubscriptionStatus env sub found).1,
         (updateSubscriptionStatus env sub found).2.1,
         (updateSubscriptionStatus env sub found).2.2)
      else
        ((match env.updateDplErr (stampGenerated { found with spec := dpl0.spec }).nspace
            (stampGenerated { found with spec := dpl0.spec }).name with
          | some e => Except.error e
          | none => Except.ok ()),
         sub,
         [KAction.updateDpl (stampGenerated { found with spec := dpl0.spec })])) := by
    unfold doMCMHubReconcile
    rw [hupd]
    simp only [hpl, hprep, htgt, hget, horg, hfnd, List.nil_append]
  refine ⟨?_, ?_, ?_⟩
  · intro hbeq
    rw [hmain, hbeq]
    simp
  · intro hbeq
    rw [hmain, hbeq]
    simpa using dplActions_updateSubscriptionStatus env sub found
  · intro ht
    have hsame : fnd = org := by
      rw [ht, horg] at hfnd
      exact (Option.some.injEq _ _ ▸ hfnd).symm
    subst hsame
    rw [hmain, JValue.beq_refl]
    simpa using dplActions_updateSubscriptionStatus env sub found

def c1Sub : Subscription :=
  { apiVersion := "", kind := "", nspace := "ns", name := "s",
    uid := "u1", resourceVersion := "5", generation := 3,
    creationTimestamp := 9, selfLink := "x", annotations := none,
    spec := { channel := "", package := "", packageFilter := none,
              packageOverrides := [],
              overrides := [⟨"clusterA", [.jstr "x"]⟩],
              placement := some (.localPl false) },
    status := { phase := "Propagated", message := "", reason := "",
                lastUpdateTime := 5, statuses := some [] } }

def c1Desired : Deployable :=
  match prepareDeployableForSubscription idApply baseEnv c1Sub none with
  | .ok d => d
  | .error _ => emptyDeployable

/-- The stored primary Deployable: byte-identical template, but an
override list that drifted away from the desired one. -/
def c1Found : Deployable :=
  { c1Desired with spec := { c1Desired.spec with overrides := [] } }

def c1Env : Env :=
  { baseEnv with getDpl := fun ns n =>
      if ns = "ns" ∧ n = "s-deployable" then .ok c1Found else .error .notFound }

def c1Org : JValue :=
  match decodeTemplate c1Desired.spec.template with
  | some v => v
  | none => .jnull

/-- C1 counterexample: with the primary Deployable already existing, the
desired and found override lists differ while the decoded templates are
equal — yet the whole cycle performs no mutating call at all, refuting
"deep-compares ... the overrides lists, and issues an update exactly when
they differ" for the primary path. -/
theorem c1_drift_counterexample :
    prepareDeployableForSubscription idApply c1Env c1Sub none = .ok c1Desired
    ∧ c1Env.getDpl c1Sub.nspace (c1Sub.name ++ "-deployable") = .ok c1Found
    ∧ c1Desired.spec.overrides = [⟨"clusterA", [.jstr "x"]⟩]
    ∧ c1Found.spec.overrides = []
    ∧ decodeTemplate c1Desired.spec.template = decodeTemplate c1Found.spec.template
    ∧ (doMCMHubReconcile idApply c1Env c1Sub).2.2 = [] :=
  ⟨rfl, rfl, rfl, rfl, rfl, rfl⟩

theorem c1_drift_amended_witness :
    (JValue.beq c1Org c1Org = false →
        (doMCMHubReconcile idApply c1Env c1Sub).2.2
          = [KAction.updateDpl (stampGenerated { c1Found with spec := c1Desired.spec })])
    ∧ (JValue.beq c1Org c1Org = true →
        dplActions (doMCMHubReconcile idApply c1Env c1Sub).2.2 = [])
    ∧ (c1Found.spec.template = c1Desired.spec.template →
        dplActions (doMCMHubReconcile idApply c1Env c1Sub).2.2 = []) :=
  c1_drift_amended idApply c1Env c1Sub (.localPl false) c1Desired c1Found c1Org c1Org
    rfl rfl rfl rfl rfl rfl rfl
